import Mathlib

/-!
Verification of the Fid-Import portfolio analytics and ledger engine.

This file gives a shallow embedding in Lean of the parts of the Python source
that the verified properties are about:

* `fidelity_tracker/transactions/cost_basis.py`  (CostBasisCalculator)
* `fidelity_tracker/transactions/snapshot_inference.py`  (TransactionInferenceEngine)
* `fidelity_tracker/analytics/performance.py`  (PerformanceAnalytics)
* `fidelity_tracker/analytics/risk.py`  (RiskAnalytics)
* `fidelity_tracker/analytics/attribution.py`  (AttributionAnalytics)
* `fidelity_tracker/analytics/optimization.py`  (PortfolioOptimizer)

Conventions of the embedding:

* Python `float` and `Decimal` values are modelled as `ℚ`; the one place where a
  genuinely transcendental operation occurs (float `**` with a fractional
  exponent, used for annualization and NPV discounting) is modelled with real
  `rpow`, and external numeric solvers (`scipy.optimize.newton`,
  `scipy.optimize.minimize`) are opaque parameters.
* The SQLite store is modelled as explicit in-memory state (lists of rows);
  SQL `ORDER BY` on a text column is lexicographic string order, `WHERE`
  clauses are filters.
* Python exceptions are modelled with `Except PyErr`; an `Except.error` result
  is a raised exception, `Except.ok` a normal return.
* Python attribute lookup on the `sqlite3` module is modelled by membership in
  the module's name list, because `cost_basis.py` line 34 spells the connection
  constructor `sqlite3.Connect` (the module only exports `connect`).
-/

/-- Python exceptions raised by the embedded code.  `valueError` is a
`ValueError` whose message carries no data the claims depend on;
`insufficientShares tried available` is the `ValueError` raised by
`record_sale` whose message names the quantity the caller tried to sell and
the quantity actually available. -/
inductive PyErr where
  | attributeError
  | valueError
  | insufficientShares (tried : ℚ) (available : ℚ)
  deriving DecidableEq, Repr

/-- `ROUND_HALF_UP` of Python `decimal`: round to the nearest integer, ties
going away from zero. -/
def roundHalfUpInt (x : ℚ) : ℤ :=
  if 0 ≤ x then ⌊x + 1/2⌋ else ⌈x - 1/2⌉

/-- `Decimal.quantize(Decimal('0.01'), rounding=ROUND_HALF_UP)`: round to two
decimal places, half away from zero. -/
def quantize2 (x : ℚ) : ℚ := (roundHalfUpInt (x * 100) : ℚ) / 100

/-- Python `str.upper()` (the tickers involved are ASCII), implemented by
structural recursion on the character list so that it evaluates
definitionally. -/
def pyUpper (s : String) : String := ⟨s.data.map Char.toUpper⟩

/-- `a <= b` on Python strings / SQLite TEXT values: code-point lexicographic
order, as a computable Bool. -/
def strLeB (a b : String) : Bool := !(b.data < a.data : Bool)

/-- `a < b` on Python strings, code-point lexicographic. -/
def strLtB (a b : String) : Bool := (a.data < b.data : Bool)

/-- Helper of `splitChar`: accumulate the current field (reversed). -/
def splitCharAux (c : Char) : List Char → List Char → List String
  | [], acc => [⟨acc.reverse⟩]
  | x :: xs, acc =>
    if x = c then ⟨acc.reverse⟩ :: splitCharAux c xs []
    else splitCharAux c xs (x :: acc)

/-- Python `s.split(sep)` for a one-character separator. -/
def splitChar (s : String) (c : Char) : List String := splitCharAux c s.data []

/-- Parse a nonempty all-digit string as a natural number. -/
def strToNat? (s : String) : Option Nat :=
  if s.data = [] then none
  else if s.data.all (fun ch => ch.isDigit) then
    some (s.data.foldl (fun acc ch => 10 * acc + (ch.toNat - 48)) 0)
  else none

/-- Names exported by the CPython `sqlite3` module (its documented public
API).  The capitalised `Connect` used by `cost_basis.py` is not among them;
the constructor is the lower-case `connect`. -/
def sqlite3ModuleNames : List String :=
  ["connect", "complete_statement", "enable_callback_tracebacks",
   "register_adapter", "register_converter", "adapt",
   "Connection", "Cursor", "Row", "Blob", "PrepareProtocol",
   "Error", "Warning", "InterfaceError", "DatabaseError", "DataError",
   "OperationalError", "IntegrityError", "InternalError",
   "ProgrammingError", "NotSupportedError",
   "version", "version_info", "sqlite_version", "sqlite_version_info",
   "apilevel", "paramstyle", "threadsafety",
   "Binary", "Date", "Time", "Timestamp",
   "DateFromTicks", "TimeFromTicks", "TimestampFromTicks",
   "PARSE_DECLTYPES", "PARSE_COLNAMES",
   "SQLITE_OK", "SQLITE_DENY", "SQLITE_IGNORE"]

/-- `CostBasisCalculator._get_connection` (cost_basis.py lines 32-36): the body
evaluates the attribute `sqlite3.Connect`; attribute lookup of a name the
module does not export raises `AttributeError`. -/
def getConnection : Except PyErr Unit :=
  if sqlite3ModuleNames.contains "Connect" then Except.ok ()
  else Except.error PyErr.attributeError

/-- The same connection helper with the obvious one-character fix
(`sqlite3.connect`, the spelling used by every other module of the repository).
Used to exhibit what the surrounding code does once a connection can be made. -/
def getConnectionFixed : Except PyErr Unit :=
  if sqlite3ModuleNames.contains "connect" then Except.ok ()
  else Except.error PyErr.attributeError

/-- A row of the `cost_basis` table. -/
structure Lot where
  id : Nat
  account_id : Option String
  ticker : String
  acquisition_date : String
  quantity : ℚ
  cost_per_share : ℚ
  total_cost : ℚ
  method : String
  lot_id : Option String
  remaining_quantity : ℚ
  is_closed : Bool
  deriving DecidableEq, Repr

/-- A row of the `transactions` table as read by `sync_from_transactions`. -/
structure CbTx where
  account_id : String
  ticker : String
  transaction_type : String
  transaction_date : String
  quantity : ℚ
  price_per_share : ℚ
  deriving DecidableEq, Repr

/-- The SQLite database as seen by `CostBasisCalculator`: the `cost_basis`
table, the `transactions` table, and the autoincrement counter behind
`cursor.lastrowid`. -/
structure CostBasisDb where
  lots : List Lot
  txs : List CbTx
  nextId : Nat
  deriving DecidableEq, Repr

/-- The pure part of `get_lots` (cost_basis.py lines 116-133): filter the
`cost_basis` table by upper-cased ticker, optionally by account, drop closed
lots unless `include_closed`, and sort ascending by `acquisition_date`. -/
def getLotsRows (db : CostBasisDb) (ticker : String) (account_id : Option String)
    (include_closed : Bool) : List Lot :=
  let rows := db.lots.filter fun l => l.ticker = pyUpper ticker
  let rows := match account_id with
    | some a => rows.filter fun l => l.account_id = some a
    | none => rows
  let rows := if include_closed then rows else rows.filter fun l => l.is_closed = false
  List.insertionSort (fun a b => strLeB a.acquisition_date b.acquisition_date = true) rows

/-- `CostBasisCalculator.get_lots` (cost_basis.py lines 99-136): opens a
connection first, so the result of the query is only reached if
`_get_connection` returns. -/
def get_lots (db : CostBasisDb) (ticker : String) (account_id : Option String)
    (include_closed : Bool) : Except PyErr (List Lot) := do
  let _ ← getConnection
  pure (getLotsRows db ticker account_id include_closed)

/-- `get_lots` with the connection helper fixed; used to exhibit intended
behaviour of the lot-matching code. -/
def getLotsFixed (db : CostBasisDb) (ticker : String) (account_id : Option String)
    (include_closed : Bool) : Except PyErr (List Lot) := do
  let _ ← getConnectionFixed
  pure (getLotsRows db ticker account_id include_closed)

/-- The FIFO/LIFO consumption loop (cost_basis.py lines 161-173 and 218-230):
walk the lots, taking `min remaining lot.remaining_quantity` from each, and
return the accumulated cost together with the unsatisfied remainder. -/
def fifoWalk : List Lot → ℚ → ℚ × ℚ
  | [], rem => (0, rem)
  | l :: ls, rem =>
    if rem ≤ 0 then (0, rem)
    else
      let q := min rem l.remaining_quantity
      let rest := fifoWalk ls (rem - q)
      (q * l.cost_per_share + rest.1, rest.2)

/-- The arithmetic of `calculate_fifo` after the lots have been fetched
(cost_basis.py lines 155-190). -/
def calculateFifoLots (lots : List Lot) (current_quantity : ℚ) : ℚ × ℚ :=
  if lots = [] then (0, 0)
  else
    let total_cost := (fifoWalk lots current_quantity).1
    let avg := if 0 < current_quantity then quantize2 (total_cost / current_quantity) else 0
    (quantize2 total_cost, avg)

/-- `CostBasisCalculator.calculate_fifo` (cost_basis.py lines 138-190). -/
def calculate_fifo (db : CostBasisDb) (ticker : String) (current_quantity : ℚ)
    (account_id : Option String) : Except PyErr (ℚ × ℚ) := do
  let lots ← get_lots db ticker account_id false
  pure (calculateFifoLots lots current_quantity)

/-- The arithmetic of `calculate_lifo` (cost_basis.py lines 209-241): the same
walk over the reversed lot list. -/
def calculateLifoLots (lots : List Lot) (current_quantity : ℚ) : ℚ × ℚ :=
  if lots = [] then (0, 0)
  else
    let total_cost := (fifoWalk lots.reverse current_quantity).1
    let avg := if 0 < current_quantity then quantize2 (total_cost / current_quantity) else 0
    (quantize2 total_cost, avg)

/-- `CostBasisCalculator.calculate_lifo` (cost_basis.py lines 192-241). -/
def calculate_lifo (db : CostBasisDb) (ticker : String) (current_quantity : ℚ)
    (account_id : Option String) : Except PyErr (ℚ × ℚ) := do
  let lots ← get_lots db ticker account_id false
  pure (calculateLifoLots lots current_quantity)

/-- The arithmetic of `calculate_average` after the lots have been fetched
(cost_basis.py lines 260-284).  The loop sums `remaining_quantity` and
`total_cost`; the blended rate is quantized to two decimals *before* being
multiplied by `current_quantity`, and the product is quantized again. -/
def calculateAverageLots (lots : List Lot) (current_quantity : ℚ) : ℚ × ℚ :=
  if lots = [] then (0, 0)
  else
    let total_shares := lots.foldl (fun acc l => acc + l.remaining_quantity) 0
    let total_cost := lots.foldl (fun acc l => acc + l.total_cost) 0
    if total_shares = 0 then (0, 0)
    else
      let avg_cost_per_share := quantize2 (total_cost / total_shares)
      (quantize2 (current_quantity * avg_cost_per_share), avg_cost_per_share)

/-- `CostBasisCalculator.calculate_average` (cost_basis.py lines 243-284). -/
def calculate_average (db : CostBasisDb) (ticker : String) (current_quantity : ℚ)
    (account_id : Option String) : Except PyErr (ℚ × ℚ) := do
  let lots ← get_lots db ticker account_id false
  pure (calculateAverageLots lots current_quantity)

/-- The effective method string of `calculate_cost_basis` line 305:
`method.upper() if method else self.method`. -/
def effectiveMethod (selfMethod : String) (method : Option String) : String :=
  match method with
  | some m => pyUpper m
  | none => selfMethod

/-- `CostBasisCalculator.calculate_cost_basis` (cost_basis.py lines 286-314):
dispatch on the effective method string (`method.upper()` when an override is
given, the constructor's already-validated method otherwise); an unsupported
string raises `ValueError` before any database access. -/
def calculate_cost_basis (db : CostBasisDb) (selfMethod : String) (ticker : String)
    (current_quantity : ℚ) (account_id : Option String) (method : Option String) :
    Except PyErr (ℚ × ℚ) :=
  let calcMethod := effectiveMethod selfMethod method
  if calcMethod = "FIFO" then calculate_fifo db ticker current_quantity account_id
  else if calcMethod = "LIFO" then calculate_lifo db ticker current_quantity account_id
  else if calcMethod = "AVERAGE" then calculate_average db ticker current_quantity account_id
  else Except.error PyErr.valueError

/-- `CostBasisCalculator.create_lot` (cost_basis.py lines 38-97): quantize the
total cost, open a connection, insert the row (ticker upper-cased,
`remaining_quantity` initialised to `quantity`), and return `lastrowid`. -/
def create_lot (db : CostBasisDb) (selfMethod : String) (account_id : Option String)
    (ticker : String) (acquisition_date : String) (quantity cost_per_share : ℚ)
    (lot_id : Option String) : Except PyErr (Nat × CostBasisDb) := do
  let total_cost := quantize2 (quantity * cost_per_share)
  let _ ← getConnection
  let newLot : Lot :=
    { id := db.nextId, account_id := account_id, ticker := pyUpper ticker,
      acquisition_date := acquisition_date, quantity := quantity,
      cost_per_share := cost_per_share, total_cost := total_cost,
      method := selfMethod, lot_id := lot_id,
      remaining_quantity := quantity, is_closed := false }
  pure (db.nextId, { db with lots := db.lots ++ [newLot], nextId := db.nextId + 1 })

/-- One entry of the `lots_affected` list returned by `record_sale`. -/
structure LotAffected where
  lot_id : Nat
  quantity_sold : ℚ
  cost_per_share : ℚ
  acquisition_date : String
  deriving DecidableEq, Repr

/-- The result dictionary of `record_sale` (cost_basis.py lines 396-403). -/
structure SaleRecord where
  quantity_sold : ℚ
  sale_price : ℚ
  total_proceeds : ℚ
  cost_basis : ℚ
  gain_loss : ℚ
  lots_affected : List LotAffected
  deriving DecidableEq, Repr

/-- The consumption loop of `record_sale` (cost_basis.py lines 351-381): for
each lot, in order, take `min remaining lot.remaining_quantity`, accumulate
the cost basis, record the `UPDATE` (new remaining quantity, closed flag) and
the `lots_affected` entry.  Returns (updates, affected, cost basis,
unsatisfied remainder). -/
def saleWalk : List Lot → ℚ → List (Nat × ℚ × Bool) × List LotAffected × ℚ × ℚ
  | [], rem => ([], [], 0, rem)
  | l :: ls, rem =>
    if rem ≤ 0 then ([], [], 0, rem)
    else
      let q := min rem l.remaining_quantity
      let newRem := l.remaining_quantity - q
      let rest := saleWalk ls (rem - q)
      ((l.id, newRem, decide (newRem = 0)) :: rest.1,
       ⟨l.id, q, l.cost_per_share, l.acquisition_date⟩ :: rest.2.1,
       q * l.cost_per_share + rest.2.2.1,
       rest.2.2.2)

/-- Apply the buffered `UPDATE cost_basis SET remaining_quantity, is_closed`
statements; `conn.commit()` makes them visible, `conn.rollback()` discards
them (in which case this function is never applied). -/
def applyLotUpdates (lots : List Lot) (updates : List (Nat × ℚ × Bool)) : List Lot :=
  lots.map fun l =>
    match updates.find? (fun u => u.1 = l.id) with
    | some u => { l with remaining_quantity := u.2.1, is_closed := u.2.2 }
    | none => l

/-- `CostBasisCalculator.record_sale` (cost_basis.py lines 316-417), faithful
to the shipped code: the very first statement fetches the lots through
`get_lots`, whose `_get_connection` raises `AttributeError`. -/
def record_sale (db : CostBasisDb) (ticker : String) (quantity_sold sale_price : ℚ)
    (sale_date : String) (account_id : Option String) :
    Except PyErr (SaleRecord × CostBasisDb) := do
  let lots ← get_lots db ticker account_id false
  if lots = [] then Except.error PyErr.valueError
  else
    let _ ← getConnection
    let walk := saleWalk lots quantity_sold
    let remaining_to_sell := walk.2.2.2
    if 0 < remaining_to_sell then
      -- conn.rollback(); raise ValueError naming the attempted and available quantities
      Except.error (PyErr.insufficientShares quantity_sold (quantity_sold - remaining_to_sell))
    else
      let total_cost_basis := walk.2.2.1
      let total_proceeds := quantity_sold * sale_price
      let record : SaleRecord :=
        { quantity_sold := quantity_sold, sale_price := sale_price,
          total_proceeds := quantize2 total_proceeds,
          cost_basis := quantize2 total_cost_basis,
          gain_loss := quantize2 (total_proceeds - total_cost_basis),
          lots_affected := walk.2.1 }
      pure (record, { db with lots := applyLotUpdates db.lots walk.1 })

/-- `record_sale` with the connection helper fixed: the behaviour the rest of
the function implements once a connection can be opened. -/
def recordSaleFixed (db : CostBasisDb) (ticker : String) (quantity_sold sale_price : ℚ)
    (sale_date : String) (account_id : Option String) :
    Except PyErr (SaleRecord × CostBasisDb) := do
  let lots ← getLotsFixed db ticker account_id false
  if lots = [] then Except.error PyErr.valueError
  else
    let _ ← getConnectionFixed
    let walk := saleWalk lots quantity_sold
    let remaining_to_sell := walk.2.2.2
    if 0 < remaining_to_sell then
      Except.error (PyErr.insufficientShares quantity_sold (quantity_sold - remaining_to_sell))
    else
      let total_cost_basis := walk.2.2.1
      let total_proceeds := quantity_sold * sale_price
      let record : SaleRecord :=
        { quantity_sold := quantity_sold, sale_price := sale_price,
          total_proceeds := quantize2 total_proceeds,
          cost_basis := quantize2 total_cost_basis,
          gain_loss := quantize2 (total_proceeds - total_cost_basis),
          lots_affected := walk.2.1 }
      pure (record, { db with lots := applyLotUpdates db.lots walk.1 })

/-- The loop of `sync_from_transactions` (cost_basis.py lines 446-467): for
each BUY transaction, skip it when a lot with the same ticker, acquisition
date and quantity exists, otherwise create a lot via `create_lot`. -/
def syncWalk (selfMethod : String) : CostBasisDb → List CbTx → Except PyErr (CostBasisDb × Nat)
  | db, [] => pure (db, 0)
  | db, t :: ts =>
    if db.lots.any fun l =>
        l.ticker = t.ticker ∧ l.acquisition_date = t.transaction_date ∧ l.quantity = t.quantity
    then syncWalk selfMethod db ts
    else do
      let res ← create_lot db selfMethod (some t.account_id) t.ticker t.transaction_date
        t.quantity t.price_per_share none
      let rest ← syncWalk selfMethod res.2 ts
      pure (rest.1, rest.2 + 1)

/-- `CostBasisCalculator.sync_from_transactions` (cost_basis.py lines
419-473): opens a connection, reads the BUY transactions ordered by date, and
creates the missing lots. -/
def sync_from_transactions (db : CostBasisDb) (selfMethod : String)
    (account_id : Option String) : Except PyErr (CostBasisDb × Nat) := do
  let _ ← getConnection
  let buys := db.txs.filter fun t => t.transaction_type = "BUY"
  let buys := match account_id with
    | some a => buys.filter fun t => t.account_id = a
    | none => buys
  let buys := List.insertionSort (fun a b => strLeB a.transaction_date b.transaction_date = true) buys
  syncWalk selfMethod db buys

/-- A row of the `snapshots` table: `{id, timestamp, total_value}`. -/
structure Snapshot where
  id : Nat
  timestamp : String
  total_value : ℚ
  deriving DecidableEq, Repr

/-- `TransactionInferenceEngine._parse_snapshot_date` (snapshot_inference.py
lines 147-170): normalise a snapshot timestamp to a `YYYY-MM-DD` date string,
accepting the legacy compact `YYYYMMDD_HHMMSS` encoding and ISO-like forms. -/
def parseSnapshotDate (ts : String) : String :=
  if ts.data.contains '_' ∧ ts.data.length = 15 then
    (⟨ts.data.take 4⟩ : String) ++ "-" ++ (⟨(ts.data.drop 4).take 2⟩ : String) ++ "-" ++
      (⟨(ts.data.drop 6).take 2⟩ : String)
  else if ts.data.contains 'T' then (splitChar ts 'T').headD ""
  else if ts.data.contains ' ' then (splitChar ts ' ').headD ""
  else ⟨ts.data.take 10⟩

/-- A row of the `holdings` table as read by the inference engine
(snapshot_inference.py lines 54-60); `ticker`, `quantity`, `value` and
`last_price` are nullable columns. -/
structure InfHolding where
  snapshot_id : Nat
  ticker : Option String
  quantity : Option ℚ
  value : Option ℚ
  last_price : Option ℚ
  deriving DecidableEq, Repr

/-- A transaction record as synthesized by `compare_snapshots`
(snapshot_inference.py lines 131-141) and as stored in the `transactions`
table. -/
structure InfTx where
  transaction_date : String
  ticker : String
  transaction_type : String
  quantity : ℚ
  price_per_share : ℚ
  total_amount : ℚ
  account_id : String
  source : String
  deriving DecidableEq, Repr

/-- The database as seen by `TransactionInferenceEngine`. -/
structure InfDb where
  snapshots : List Snapshot
  holdings : List InfHolding
  txs : List InfTx
  deriving Repr

/-- `get_snapshots_chronological` (snapshot_inference.py lines 33-47):
`ORDER BY timestamp ASC` on the text column. -/
def getSnapshotsChronological (db : InfDb) : List Snapshot :=
  List.insertionSort (fun a b => strLeB a.timestamp b.timestamp = true) db.snapshots

/-- The per-ticker holding values built by `get_holdings_for_snapshot`
(snapshot_inference.py lines 62-69): `Decimal(str(x)) if x else Decimal('0')`
collapses both `NULL` and `0` to `0`. -/
structure HoldVals where
  quantity : ℚ
  value : ℚ
  last_price : ℚ
  deriving DecidableEq, Repr

/-- Insert into a Python dict: overwrite the value when the key is present,
append otherwise (iteration order is insertion order). -/
def dictUpsert {α β : Type} [DecidableEq α] (m : List (α × β)) (k : α) (v : β) :
    List (α × β) :=
  if m.any (fun p => p.1 = k) then
    m.map fun p => if p.1 = k then (k, v) else p
  else m ++ [(k, v)]

/-- `get_holdings_for_snapshot` (snapshot_inference.py lines 49-72): the rows
of one snapshot with a non-NULL ticker different from `'N/A'`, keyed by
ticker. -/
def getHoldingsForSnapshot (db : InfDb) (sid : Nat) : List (String × HoldVals) :=
  (db.holdings.filter fun h =>
      h.snapshot_id = sid ∧ h.ticker ≠ none ∧ h.ticker ≠ some "N/A").foldl
    (fun m h =>
      dictUpsert m (h.ticker.getD "")
        ⟨h.quantity.getD 0, h.value.getD 0, h.last_price.getD 0⟩)
    []

/-- The per-ticker body of the `compare_snapshots` loop (snapshot_inference.py
lines 92-143).  Returns no transaction when the quantity is unchanged; the
lookup `curr_holdings[ticker]` in the increased-position branch raises
`KeyError` when the ticker is absent from the current snapshot (reachable only
with a negative prior quantity), modelled as `Except.error`. -/
def compareTicker (prev curr : List (String × HoldVals)) (currDate : String)
    (ticker : String) : Except Unit (List InfTx) :=
  let prevQty := ((prev.find? (fun p => p.1 = ticker)).map (fun p => p.2.quantity)).getD 0
  let currQty := ((curr.find? (fun p => p.1 = ticker)).map (fun p => p.2.quantity)).getD 0
  if prevQty = currQty then Except.ok []
  else
    let qtyChange := currQty - prevQty
    if prevQty = 0 ∧ 0 < currQty then
      match curr.find? (fun p => p.1 = ticker) with
      | some p => Except.ok [⟨currDate, ticker, "buy", currQty, p.2.last_price,
          currQty * p.2.last_price, "INFERRED", "snapshot_inference"⟩]
      | none => Except.error ()
    else if currQty = 0 ∧ 0 < prevQty then
      match prev.find? (fun p => p.1 = ticker) with
      | some p => Except.ok [⟨currDate, ticker, "sell", prevQty, p.2.last_price,
          prevQty * p.2.last_price, "INFERRED", "snapshot_inference"⟩]
      | none => Except.error ()
    else if 0 < qtyChange then
      match curr.find? (fun p => p.1 = ticker) with
      | some p => Except.ok [⟨currDate, ticker, "buy", qtyChange, p.2.last_price,
          qtyChange * p.2.last_price, "INFERRED", "snapshot_inference"⟩]
      | none => Except.error ()
    else
      match curr.find? (fun p => p.1 = ticker) with
      | some p => Except.ok [⟨currDate, ticker, "sell", |qtyChange|, p.2.last_price,
          |qtyChange| * p.2.last_price, "INFERRED", "snapshot_inference"⟩]
      | none => Except.error ()

/-- Fold the per-ticker comparison over the ticker set, propagating the first
raised exception (which aborts the whole comparison, as in Python). -/
def compareTickers (prev curr : List (String × HoldVals)) (currDate : String) :
    List String → Except Unit (List InfTx)
  | [] => Except.ok []
  | t :: ts => do
    let here ← compareTicker prev curr currDate t
    let rest ← compareTickers prev curr currDate ts
    pure (here ++ rest)

/-- `compare_snapshots` (snapshot_inference.py lines 74-145): compare the
holdings of two consecutive snapshots ticker by ticker.  The Python iterates
`set(prev) | set(curr)` in unspecified order; the embedding iterates the
deduplicated concatenation — the claims proved below do not depend on the
iteration order. -/
def compareSnapshots (db : InfDb) (prevSnap currSnap : Snapshot) :
    Except Unit (List InfTx) :=
  let prev := getHoldingsForSnapshot db prevSnap.id
  let curr := getHoldingsForSnapshot db currSnap.id
  let allTickers := (prev.map Prod.fst ++ curr.map Prod.fst).dedup
  compareTickers prev curr (parseSnapshotDate currSnap.timestamp) allTickers

/-- Result of `infer_all_transactions` (snapshot_inference.py lines 232-238). -/
structure InferResult where
  inferred : Nat
  skipped : Nat
  errors : Nat
  transactions : List InfTx
  deriving Repr

/-- The pair loop of `infer_all_transactions` (snapshot_inference.py lines
206-230): for each consecutive snapshot pair, skip it when `skip_existing`
and the later snapshot's date is among the existing inference dates,
otherwise run the comparison, collecting transactions and counting errors. -/
def inferPairs (db : InfDb) (existing : List String) (skip : Bool) :
    List (Snapshot × Snapshot) → List InfTx × Nat
  | [] => ([], 0)
  | p :: ps =>
    let rest := inferPairs db existing skip ps
    let currDate := parseSnapshotDate p.2.timestamp
    if skip ∧ currDate ∈ existing then rest
    else
      match compareSnapshots db p.1 p.2 with
      | Except.ok txs => (txs ++ rest.1, rest.2)
      | Except.error _ => (rest.1, rest.2 + 1)

/-- The consecutive pairs of a list, in order. -/
def consecutivePairs {α : Type} : List α → List (α × α)
  | a :: b :: rest => (a, b) :: consecutivePairs (b :: rest)
  | _ => []

/-- `SELECT DISTINCT transaction_date FROM transactions WHERE source =
'snapshot_inference'` (snapshot_inference.py line 201). -/
def existingInferenceDates (db : InfDb) : List String :=
  ((db.txs.filter fun t => t.source = "snapshot_inference").map
    (fun t => t.transaction_date)).dedup

/-- `infer_all_transactions` (snapshot_inference.py lines 172-238). -/
def inferAllTransactions (db : InfDb) (skip_existing : Bool) : InferResult :=
  let snapshots := getSnapshotsChronological db
  if snapshots.length < 2 then ⟨0, 0, 0, []⟩
  else
    let existing := if skip_existing then existingInferenceDates db else []
    let res := inferPairs db existing skip_existing (consecutivePairs snapshots)
    ⟨res.1.length, if skip_existing then existing.length else 0, res.2, res.1⟩

/-- `save_inferred_transactions` (snapshot_inference.py lines 240-282): insert
each row into the `transactions` table.  The embedding models no UNIQUE
constraint on the table, so every insert succeeds (the Python skips integrity
violations row by row). -/
def saveInferredTransactions (db : InfDb) (transactions : List InfTx) : InfDb × Nat :=
  ({ db with txs := db.txs ++ transactions }, transactions.length)

/-- Day number of a proleptic Gregorian calendar date (days-from-civil); used
to model differences of Python `datetime` values, whose `timedelta.days` is
the floor of the difference in days. -/
def daysFromCivil (y m d : ℤ) : ℤ :=
  let y2 := if m ≤ 2 then y - 1 else y
  let era := (if 0 ≤ y2 then y2 else y2 - 399) / 400
  let yoe := y2 - era * 400
  let mp := if 2 < m then m - 3 else m + 9
  let doy := (153 * mp + 2) / 5 + d - 1
  let doe := yoe * 365 + yoe / 4 - yoe / 100 + doy
  era * 146097 + doe - 719468

/-- Parse a `YYYY-MM-DD` date string; `none` models the `ValueError` of
`datetime.fromisoformat` on malformed input. -/
def parseIsoDate (s : String) : Option (ℤ × ℤ × ℤ) :=
  match splitChar s '-' with
  | [ys, ms, ds] =>
    match strToNat? ys, strToNat? ms, strToNat? ds with
    | some y, some m, some d =>
      if 1 ≤ m ∧ m ≤ 12 ∧ 1 ≤ d ∧ d ≤ 31 then some ((y : ℤ), (m : ℤ), (d : ℤ))
      else none
    | _, _, _ => none
  | _ => none

/-- Model of `datetime.fromisoformat`: a timestamp as a rational number of
days (day number plus fraction of day from the optional `HH:MM:SS` part). -/
def parseIsoDatetime (s : String) : Option ℚ :=
  let parts := if s.data.contains 'T' then splitChar s 'T' else splitChar s ' '
  let dateStr := parts.headD ""
  let timeStr := parts.getD 1 ""
  match parseIsoDate dateStr with
  | none => none
  | some (y, m, d) =>
    let dayNum : ℚ := (daysFromCivil y m d : ℚ)
    if timeStr = "" then some dayNum
    else
      match splitChar timeStr ':' with
      | [hs, mins, ss] =>
        match hs.toNat?, mins.toNat?, ss.toNat? with
        | some h, some mi, some sec =>
          some (dayNum + ((h * 3600 + mi * 60 + sec : ℕ) : ℚ) / 86400)
        | _, _, _ => none
      | [hs, mins] =>
        match hs.toNat?, mins.toNat? with
        | some h, some mi => some (dayNum + ((h * 3600 + mi * 60 : ℕ) : ℚ) / 86400)
        | _, _ => none
      | _ => none

/-- A row of the `transactions` table as read by `PerformanceAnalytics`. -/
structure PerfTx where
  transaction_date : String
  transaction_type : String
  total_amount : ℚ
  ticker : String
  deriving DecidableEq, Repr

/-- `sorted(snapshots, key=lambda x: x['timestamp'])`. -/
def sortSnapshots (snapshots : List Snapshot) : List Snapshot :=
  List.insertionSort (fun a b => strLeB a.timestamp b.timestamp = true) snapshots

/-- `sorted(transactions, key=lambda x: x['transaction_date'])`. -/
def sortPerfTxs (transactions : List PerfTx) : List PerfTx :=
  List.insertionSort (fun a b => strLeB a.transaction_date b.transaction_date = true) transactions

/-- The cash flows of one TWR sub-period (performance.py lines 80-85): BUY and
SELL transactions dated in `[start_ts, end_ts)`, BUY counted positive and SELL
negative. -/
def periodCashFlows (transactions : List PerfTx) (startTs endTs : String) : ℚ :=
  ((transactions.filter fun t =>
      strLeB startTs t.transaction_date = true ∧ strLtB t.transaction_date endTs = true ∧
        (pyUpper t.transaction_type = "BUY" ∨ pyUpper t.transaction_type = "SELL")).map
    fun t => if pyUpper t.transaction_type = "BUY" then t.total_amount
             else -t.total_amount).sum

/-- The sub-period return loop of `calculate_twr` (performance.py lines
71-91): one return per consecutive snapshot pair, skipping pairs whose start
value is zero. -/
def periodReturnsAux (transactions : List PerfTx) : List Snapshot → List ℚ
  | s1 :: s2 :: rest =>
    let tail := periodReturnsAux transactions (s2 :: rest)
    if s1.total_value = 0 then tail
    else
      ((s2.total_value - s1.total_value -
          periodCashFlows transactions s1.timestamp s2.timestamp) / s1.total_value) :: tail
  | _ => []

/-- The sub-period returns of `calculate_twr` on the date-sorted inputs. -/
def twrPeriodReturns (snapshots : List Snapshot) (transactions : List PerfTx) : List ℚ :=
  periodReturnsAux (sortPerfTxs transactions) (sortSnapshots snapshots)

/-- The result dictionary of `calculate_twr` (performance.py lines 102-107);
in the two degenerate branches (fewer than two snapshots, or no usable
sub-period) the Python dict carries only `twr` and `periods`, modelled here by
zero in the remaining fields. -/
structure TwrResult where
  twr : ℚ
  twr_percent : ℚ
  periods : Nat
  annualized_twr : ℝ

/-- `PerformanceAnalytics._annualize_return` (performance.py lines 175-184):
`(1 + total_return) ** (periods_per_year / periods) - 1`, with `0` returned
when `periods = 0`. -/
noncomputable def annualizeReturn (total_return : ℚ) (periods periods_per_year : ℕ) : ℝ :=
  if periods = 0 then 0
  else (1 + (total_return : ℝ)) ^ ((periods_per_year : ℝ) / (periods : ℝ)) - 1

/-- `PerformanceAnalytics.calculate_twr` (performance.py lines 47-107).  Note
line 106: the second argument of `_annualize_return` is
`len(period_returns)`. -/
noncomputable def calculate_twr (snapshots : List Snapshot) (transactions : List PerfTx) :
    TwrResult :=
  if snapshots.length < 2 then ⟨0, 0, 0, 0⟩
  else
    let rs := twrPeriodReturns snapshots transactions
    if rs = [] then ⟨0, 0, 0, 0⟩
    else
      let twr := (rs.map fun r => 1 + r).prod - 1
      ⟨twr, twr * 100, rs.length, annualizeReturn twr rs.length 365⟩

/-- The calendar-day length of the snapshot window:
`(end_date - start_date).days` over the date-sorted snapshots, exactly as
`calculate_portfolio_returns` computes `period_days` (performance.py lines
244-247).  This is the quantity the specification says the annualization
exponent uses. -/
def windowCalendarDays (snapshots : List Snapshot) : ℤ :=
  let s := sortSnapshots snapshots
  match s.head?, s.getLast? with
  | some a, some b =>
    match parseIsoDatetime a.timestamp, parseIsoDatetime b.timestamp with
    | some x, some y => ⌊y - x⌋
    | _, _ => 0
  | _, _ => 0

/-- The result dictionary of `calculate_mwr` (performance.py lines 168-173);
in the fewer-than-two-snapshots branch the Python dict carries only `mwr` and
`converged`, modelled by `cash_flows_count = 0`. -/
structure MwrResult where
  mwr : ℝ
  converged : Bool
  cash_flows_count : Nat

/-- The intermediate-transaction pass of `calculate_mwr` (performance.py lines
141-147): parse every transaction date (a malformed date raises before the
window test), keep flows strictly inside the window, BUY negative and SELL
positive.  Note line 145 compares `transaction_type == 'BUY'` without
upper-casing. -/
def mwrIntermediate (startD endD : ℚ) : List PerfTx → Except PyErr (List (ℚ × ℚ))
  | [] => Except.ok []
  | t :: ts =>
    match parseIsoDatetime t.transaction_date with
    | none => Except.error PyErr.valueError
    | some td => do
      let rest ← mwrIntermediate startD endD ts
      if startD < td ∧ td < endD then
        pure ((if t.transaction_type = "BUY" then -t.total_amount else t.total_amount, td) :: rest)
      else
        pure rest

/-- The cash-flow timeline of `calculate_mwr` (performance.py lines 129-154):
initial value negative at elapsed time 0, intermediate flows at their
elapsed-year offsets (`(d - start).days / 365.25`), final value positive at
the window end. -/
def buildCashFlows (snapshots : List Snapshot) (transactions : List PerfTx) :
    Except PyErr (List (ℚ × ℚ)) :=
  let sortedS := sortSnapshots snapshots
  let sortedT := sortPerfTxs transactions
  match sortedS.head?, sortedS.getLast? with
  | some s0, some sl =>
    match parseIsoDatetime s0.timestamp, parseIsoDatetime sl.timestamp with
    | some startD, some endD => do
      let mid ← mwrIntermediate startD endD sortedT
      let timeline := (-s0.total_value, startD) :: (mid ++ [(sl.total_value, endD)])
      pure (timeline.map fun p => (p.1, ((⌊p.2 - startD⌋ : ℤ) : ℚ) * 4 / 1461))
    | _, _ => Except.error PyErr.valueError
  | _, _ => Except.error PyErr.valueError

/-- The NPV function handed to the root finder (performance.py lines 157-158):
`sum(cf / (1 + rate) ** t)`. -/
noncomputable def npvOf (flows : List (ℚ × ℚ)) : ℝ → ℝ :=
  fun rate => (flows.map fun p => (p.1 : ℝ) / (1 + rate) ^ (p.2 : ℝ)).sum

/-- `PerformanceAnalytics.calculate_mwr` (performance.py lines 109-173).  The
call `newton(npv, 0.1, maxiter=100, tol=1e-6)` to the external scipy solver is
the opaque parameter `solver`: `some r` is a converged root, `none` is the
exception scipy raises on non-convergence, which the bare `except` of lines
161-166 turns into `mwr = 0.0, converged = False`. -/
noncomputable def calculate_mwr (solver : (ℝ → ℝ) → Option ℝ)
    (snapshots : List Snapshot) (transactions : List PerfTx) : Except PyErr MwrResult :=
  if snapshots.length < 2 then Except.ok ⟨0, false, 0⟩
  else
    match buildCashFlows snapshots transactions with
    | Except.error e => Except.error e
    | Except.ok flows =>
      match solver (npvOf flows) with
      | some r => Except.ok ⟨r, true, flows.length⟩
      | none => Except.ok ⟨0, false, flows.length⟩

/-- `Series.pct_change() * 100` followed by `dropna()`: one percentage change
per consecutive pair of values. -/
def pctChanges : List ℚ → List ℚ
  | a :: b :: rest => ((b - a) / a * 100) :: pctChanges (b :: rest)
  | _ => []

/-- `RiskAnalytics._get_portfolio_returns` (risk.py lines 45-75): the
`total_value` column of the snapshots with `timestamp >= cutoff`, ordered by
timestamp, turned into daily percentage returns; empty below two rows.  The
cutoff string (computed in Python from `datetime.now() - timedelta(days)`) is
a parameter of the embedding. -/
def getPortReturns (snapshots : List Snapshot) (cutoff : String) : List ℚ :=
  let rows := List.insertionSort (fun a b => strLeB a.timestamp b.timestamp = true)
    (snapshots.filter fun s => strLeB cutoff s.timestamp = true)
  if rows.length < 2 then [] else pctChanges (rows.map fun s => s.total_value)

/-- A row of the benchmark price series (`benchmark_data` joined on the
benchmark ticker): `(date, close_price)`. -/
def getBenchReturns (rows : List (String × ℚ)) (cutoff : String) : List ℚ :=
  let rs := List.insertionSort (fun a b => strLeB a.1 b.1 = true)
    (rows.filter fun r => strLeB cutoff r.1 = true)
  if rs.length < 2 then [] else pctChanges (rs.map Prod.snd)

/-- Σx, Σy, Σxy, Σx², Σy² of a list of (x, y) samples. -/
def olsSums (pairs : List (ℚ × ℚ)) : ℚ × ℚ × ℚ × ℚ × ℚ :=
  pairs.foldl
    (fun acc p => (acc.1 + p.1, acc.2.1 + p.2, acc.2.2.1 + p.1 * p.2,
                   acc.2.2.2.1 + p.1 * p.1, acc.2.2.2.2 + p.2 * p.2))
    (0, 0, 0, 0, 0)

/-- Ordinary least-squares slope of y on x (`scipy.stats.linregress`). -/
def olsSlope (pairs : List (ℚ × ℚ)) : ℚ :=
  let s := olsSums pairs
  let n : ℚ := pairs.length
  (n * s.2.2.1 - s.1 * s.2.1) / (n * s.2.2.2.1 - s.1 * s.1)

/-- Ordinary least-squares intercept of y on x. -/
def olsIntercept (pairs : List (ℚ × ℚ)) : ℚ :=
  let s := olsSums pairs
  let n : ℚ := pairs.length
  (s.2.1 - olsSlope pairs * s.1) / n

/-- The squared Pearson correlation (`r_value ** 2` of `linregress`), which is
rational even though `r_value` itself is not. -/
def olsRSquared (pairs : List (ℚ × ℚ)) : ℚ :=
  let s := olsSums pairs
  let n : ℚ := pairs.length
  (n * s.2.2.1 - s.1 * s.2.1) ^ 2 /
    ((n * s.2.2.2.1 - s.1 * s.1) * (n * s.2.2.2.2 - s.2.1 * s.2.1))

/-- The Pearson correlation coefficient. -/
noncomputable def pearsonCorrelation (pairs : List (ℚ × ℚ)) : ℝ :=
  let s := olsSums pairs
  let n : ℚ := pairs.length
  ((n * s.2.2.1 - s.1 * s.2.1 : ℚ) : ℝ) /
    (Real.sqrt ((n * s.2.2.2.1 - s.1 * s.1 : ℚ) : ℝ) *
     Real.sqrt ((n * s.2.2.2.2 - s.2.1 * s.2.1 : ℚ) : ℝ))

/-- The result dictionary of `calculate_beta` (risk.py lines 279-285). -/
structure BetaResult where
  beta : ℚ
  alpha : ℚ
  r_squared : ℚ
  correlation : ℝ
  data_points : Nat

/-- `RiskAnalytics.calculate_beta` (risk.py lines 221-285).  The two return
series are pandas Series with default integer indexes (row positions); the
`pd.DataFrame({...}).dropna()` of lines 247-250 therefore aligns them by row
position, pairing the i-th portfolio return with the i-th benchmark return —
`List.zip` of the two series.  `linregress(benchmark, portfolio)` regresses
portfolio (y) on benchmark (x); alpha is the intercept times 252. -/
noncomputable def calculate_beta (snapshots : List Snapshot)
    (benchRows : List (String × ℚ)) (cutoff : String) : BetaResult :=
  let portRet := getPortReturns snapshots cutoff
  let benchRet := getBenchReturns benchRows cutoff
  if portRet.length < 2 ∨ benchRet.length < 2 then ⟨1, 0, 0, 0, 0⟩
  else
    let aligned := benchRet.zip portRet
    if aligned.length < 2 then ⟨1, 0, 0, 0, 0⟩
    else
      ⟨olsSlope aligned, olsIntercept aligned * 252, olsRSquared aligned,
       pearsonCorrelation aligned, aligned.length⟩

/-- The later-row date labels of a percentage-change series: the i-th daily
return belongs to the (i+1)-th row's date. -/
def labeledPctChanges : List (String × ℚ) → List (String × ℚ)
  | a :: b :: rest => (b.1, (b.2 - a.2) / a.2 * 100) :: labeledPctChanges (b :: rest)
  | _ => []

/-- Modelled from the spec's words: beta computed by OLS regression of
portfolio daily returns on benchmark daily returns after inner-joining the two
series on DATE (dropping dates present in only one series).  Built on the same
sorted, cutoff-filtered rows as the source's series. -/
def betaSpecDateJoin (snapshots : List Snapshot) (benchRows : List (String × ℚ))
    (cutoff : String) : ℚ :=
  let pRows := List.insertionSort (fun a b : Snapshot => strLeB a.timestamp b.timestamp = true)
    (snapshots.filter fun s => strLeB cutoff s.timestamp = true)
  let bRows := List.insertionSort (fun a b : String × ℚ => strLeB a.1 b.1 = true)
    (benchRows.filter fun r => strLeB cutoff r.1 = true)
  let pRet := labeledPctChanges (pRows.map fun s => (s.timestamp, s.total_value))
  let bRet := labeledPctChanges bRows
  let joined := pRet.filterMap fun p =>
    (bRet.find? fun b => b.1 = p.1).map fun b => (b.2, p.2)
  olsSlope joined

/-- numpy linear percentile interpolation at fractional position `pos` within
a (sorted) list: `x[i] + (pos - i) * (x[i+1] - x[i])` for `i = floor(pos)`,
clamped to the last element. -/
def interpAt (s : List ℚ) (pos : ℚ) : ℚ :=
  let i := (⌊pos⌋).toNat
  if i + 1 < s.length then
    s.getD i 0 + (pos - (i : ℚ)) * (s.getD (i + 1) 0 - s.getD i 0)
  else s.getD (s.length - 1) 0

/-- `np.percentile(xs, q)` with the default linear interpolation: sort the
data and interpolate at position `q / 100 * (n - 1)`. -/
def percentile (xs : List ℚ) (q : ℚ) : ℚ :=
  interpAt (List.insertionSort (fun a b : ℚ => a ≤ b) xs) (q / 100 * ((xs.length : ℚ) - 1))

/-- `SELECT total_value FROM snapshots ORDER BY timestamp DESC LIMIT 1`
(risk.py line 317), with `0` when the table is empty. -/
def currentValueOf (snapshots : List Snapshot) : ℚ :=
  match List.insertionSort (fun a b : Snapshot => strLeB b.timestamp a.timestamp = true) snapshots with
  | [] => 0
  | s :: _ => s.total_value

/-- The result dictionary of `calculate_value_at_risk` (risk.py lines
325-331); the insufficient-data branch (lines 302-308) carries no
`current_value` key, modelled by `0`. -/
structure VarResult where
  var_percent : ℚ
  var_amount : ℚ
  confidence_level : ℚ
  current_value : ℚ
  data_points : Nat
  deriving DecidableEq, Repr

/-- `RiskAnalytics.calculate_value_at_risk` (risk.py lines 287-331): the
`(1 - confidence) * 100` percentile of the daily-return distribution, scaled
to dollars by the latest snapshot's total value. -/
def calculate_value_at_risk (snapshots : List Snapshot) (cutoff : String)
    (confidence : ℚ) : VarResult :=
  let returns := getPortReturns snapshots cutoff
  if returns.length < 2 then ⟨0, 0, confidence, 0, 0⟩
  else
    let var_percent := percentile returns ((1 - confidence) * 100)
    let current_value := currentValueOf snapshots
    ⟨var_percent, current_value * (var_percent / 100), confidence, current_value,
     returns.length⟩

/-- A row of the `holdings` table as read by `AttributionAnalytics`
(attribution.py lines 69-83); every selected column is nullable and there is
no NULL-ticker filter in these queries. -/
structure AttrHolding where
  snapshot_id : Nat
  ticker : Option String
  value : Option ℚ
  quantity : Option ℚ
  last_price : Option ℚ
  sector : Option String
  gain_loss : Option ℚ
  gain_loss_percent : Option ℚ
  deriving DecidableEq, Repr

/-- The database as seen by `AttributionAnalytics`. -/
structure AttrDb where
  snapshots : List Snapshot
  holdings : List AttrHolding
  deriving Repr

/-- One entry of the list returned by `calculate_holding_attribution`
(attribution.py lines 105-119). -/
structure AttrRow where
  ticker : Option String
  sector : Option String
  start_value : ℚ
  end_value : ℚ
  value_change : ℚ
  holding_return : ℚ
  weight : ℚ
  contribution : ℚ
  gain_loss : Option ℚ
  gain_loss_percent : Option ℚ
  deriving DecidableEq, Repr

/-- The per-ticker record of the attribution loop (attribution.py lines
88-119), given the two holdings dicts and the two snapshot totals. -/
def mkAttrRow (startMap endMap : List (Option String × AttrHolding))
    (total_start total_end : ℚ) (ticker : Option String) : AttrRow :=
  let start_value := match startMap.find? fun p => p.1 = ticker with
    | some p => (p.2.value).getD 0
    | none => 0
  let end_value := match endMap.find? fun p => p.1 = ticker with
    | some p => (p.2.value).getD 0
    | none => 0
  let holding_return := if 0 < start_value then (end_value - start_value) / start_value else 0
  let avg_value := (start_value + end_value) / 2
  let weight := if 0 < total_start + total_end then avg_value / ((total_start + total_end) / 2)
    else 0
  { ticker := ticker,
    sector := match endMap.find? fun p => p.1 = ticker with
      | some p => p.2.sector
      | none => some "Unknown",
    start_value := start_value, end_value := end_value,
    value_change := end_value - start_value,
    holding_return := holding_return, weight := weight,
    contribution := weight * holding_return,
    gain_loss := match endMap.find? fun p => p.1 = ticker with
      | some p => p.2.gain_loss
      | none => none,
    gain_loss_percent := match endMap.find? fun p => p.1 = ticker with
      | some p => p.2.gain_loss_percent
      | none => none }

/-- The holdings of one snapshot keyed by (nullable) ticker, as the dict
comprehensions of attribution.py lines 75 and 83 build them. -/
def attrHoldingsMap (db : AttrDb) (sid : Nat) : List (Option String × AttrHolding) :=
  (db.holdings.filter fun h => h.snapshot_id = sid).foldl
    (fun m h => dictUpsert m h.ticker h) []

/-- `AttributionAnalytics.calculate_holding_attribution` (attribution.py lines
24-127): start snapshot is the earliest with `timestamp >= cutoff`, end
snapshot is the latest overall; one attribution row per ticker present at
either end, sorted by contribution descending. -/
def calculate_holding_attribution (db : AttrDb) (cutoff : String) : List AttrRow :=
  let startSnap := (List.insertionSort (fun a b : Snapshot => strLeB a.timestamp b.timestamp = true)
    (db.snapshots.filter fun s => strLeB cutoff s.timestamp = true)).head?
  let endSnap := (List.insertionSort (fun a b : Snapshot => strLeB b.timestamp a.timestamp = true)
    db.snapshots).head?
  match startSnap, endSnap with
  | some s, some e =>
    let startMap := attrHoldingsMap db s.id
    let endMap := attrHoldingsMap db e.id
    let tickers := (startMap.map Prod.fst ++ endMap.map Prod.fst).dedup
    let rows := tickers.map (mkAttrRow startMap endMap s.total_value e.total_value)
    List.insertionSort (fun a b : AttrRow => b.contribution ≤ a.contribution) rows
  | _, _ => []

/-- The running per-sector totals of `calculate_sector_attribution`
(attribution.py lines 140-161). -/
structure SectorAcc where
  sector : Option String
  start_value : ℚ
  end_value : ℚ
  value_change : ℚ
  weight : ℚ
  contribution : ℚ
  holdings_count : Nat
  deriving DecidableEq, Repr

/-- Accumulate one holding's fields into its sector's running totals
(attribution.py lines 156-161). -/
def sectorUpd (h : AttrRow) (s : SectorAcc) : SectorAcc :=
  { s with start_value := s.start_value + h.start_value,
           end_value := s.end_value + h.end_value,
           value_change := s.value_change + h.value_change,
           weight := s.weight + h.weight,
           contribution := s.contribution + h.contribution,
           holdings_count := s.holdings_count + 1 }

/-- The zero-initialised sector entry of attribution.py lines 146-154 with
one holding already folded in. -/
def sectorNew (h : AttrRow) : SectorAcc :=
  ⟨h.sector, h.start_value, h.end_value, h.value_change, h.weight, h.contribution, 1⟩

/-- One step of the sector aggregation loop: create the sector entry if
missing, then add the holding's fields into it. -/
def addHoldingToSectors (acc : List SectorAcc) (h : AttrRow) : List SectorAcc :=
  if acc.any fun s => s.sector = h.sector then
    acc.map fun s => if s.sector = h.sector then sectorUpd h s else s
  else acc ++ [sectorNew h]

/-- The sector aggregation of attribution.py lines 140-161 over a list of
holding attributions. -/
def aggregateSectors (hs : List AttrRow) : List SectorAcc :=
  hs.foldl addHoldingToSectors []

/-- One entry of the list returned by `calculate_sector_attribution`
(attribution.py lines 171-183). -/
structure SectorRow where
  sector : Option String
  start_value : ℚ
  end_value : ℚ
  value_change : ℚ
  sector_return : ℚ
  weight : ℚ
  contribution : ℚ
  holdings_count : Nat
  deriving DecidableEq, Repr

/-- `AttributionAnalytics.calculate_sector_attribution` (attribution.py lines
129-188): aggregate the rows of `calculate_holding_attribution` by sector,
derive the sector return, and sort by contribution descending. -/
def calculate_sector_attribution (db : AttrDb) (cutoff : String) : List SectorRow :=
  let agg := aggregateSectors (calculate_holding_attribution db cutoff)
  let rows := agg.map fun s =>
    ({ sector := s.sector, start_value := s.start_value, end_value := s.end_value,
       value_change := s.value_change,
       sector_return := if (0 : ℚ) < s.start_value then s.value_change / s.start_value else 0,
       weight := s.weight, contribution := s.contribution,
       holdings_count := s.holdings_count } : SectorRow)
  List.insertionSort (fun a b : SectorRow => b.contribution ≤ a.contribution) rows

/-- The price DataFrame produced by `_get_holdings_history` (optimization.py
lines 45-118): one column per selected ticker, one rectangular row of prices
per date after forward-fill and `dropna()`.  The data acquisition itself
(top-holdings query, date normalisation, forward fill) reads the store and the
wall clock and is a parameter of the embedding. -/
structure PriceDf where
  tickers : List String
  rows : List (List ℚ)
  deriving DecidableEq, Repr

/-- `pct_change()` without the ×100 used by the optimizer
(optimization.py line 128). -/
def pctChangesRaw : List ℚ → List ℚ
  | a :: b :: rest => ((b - a) / a) :: pctChangesRaw (b :: rest)
  | _ => []

/-- Arithmetic mean. -/
def meanQ (xs : List ℚ) : ℚ := xs.sum / (xs.length : ℚ)

/-- Sample covariance (`ddof = 1`, as pandas `cov`). -/
def sampleCov (xs ys : List ℚ) : ℚ :=
  (((xs.zip ys).map fun p => (p.1 - meanQ xs) * (p.2 - meanQ ys)).sum) /
    ((xs.length : ℚ) - 1)

/-- The j-th price column. -/
def priceColumn (df : PriceDf) (j : Nat) : List ℚ := df.rows.map fun r => r.getD j 0

/-- `_calculate_returns_and_cov`, expected-returns half (optimization.py lines
127-131): annualized mean of daily percentage changes, one per column. -/
def expectedReturnsOf (df : PriceDf) : List ℚ :=
  (List.range df.tickers.length).map fun j => meanQ (pctChangesRaw (priceColumn df j)) * 252

/-- `_calculate_returns_and_cov`, covariance half (optimization.py line 134):
annualized sample covariance of the daily returns. -/
def covMatrixOf (df : PriceDf) : List (List ℚ) :=
  (List.range df.tickers.length).map fun j =>
    (List.range df.tickers.length).map fun k =>
      sampleCov (pctChangesRaw (priceColumn df j)) (pctChangesRaw (priceColumn df k)) * 252

/-- `w · (Σ w)`: the variance quadratic form of `_portfolio_performance`. -/
def quadForm (cov : List (List ℚ)) (w : List ℚ) : ℚ :=
  ((w.zip (cov.map fun row => ((row.zip w).map fun p => p.1 * p.2).sum)).map
    fun p => p.1 * p.2).sum

/-- `self.risk_free_rate = 0.045` (optimization.py line 30). -/
def riskFreeRate : ℚ := 9 / 200

/-- `PortfolioOptimizer._negative_sharpe` (optimization.py lines 150-158); the
zero-volatility test is decided on the rational quadratic form, whose square
root is the float volatility. -/
noncomputable def negativeSharpe (returns : List ℚ) (cov : List (List ℚ)) (w : List ℚ) : ℝ :=
  let pReturn := ((returns.zip w).map fun p => p.1 * p.2).sum
  if quadForm cov w = 0 then 0
  else -(((pReturn - riskFreeRate : ℚ) : ℝ) / Real.sqrt ((quadForm cov w : ℚ) : ℝ))

/-- The result of the external call `scipy.optimize.minimize(..., method =
'SLSQP', bounds, constraints)`: the weight vector `x` and the `success` flag.
The solver itself is outside the repository and is an opaque parameter. -/
structure MinimizeResult where
  x : List ℚ
  success : Bool
  deriving DecidableEq, Repr

/-- The result dictionary of `optimize_sharpe` (optimization.py lines 222-231
and its failure branches). -/
structure OptResult where
  success : Bool
  weights : List (String × ℚ)
  tickers : List String
  expected_return : ℚ
  volatility : ℝ
  sharpe : ℝ

/-- `PortfolioOptimizer.optimize_sharpe` (optimization.py lines 160-231),
parameterized by the opaque SLSQP solver (which receives the objective and the
equal-weight initial guess; the sum-to-1 constraint and [0,1] bounds are part
of the opaque call).  On success the returned weights dict keeps only the
solver weights strictly greater than 0.001 (line 219). -/
noncomputable def optimize_sharpe (prices : PriceDf)
    (solver : (List ℚ → ℝ) → List ℚ → MinimizeResult) : OptResult :=
  if prices.rows = [] ∨ prices.tickers.length < 2 then ⟨false, [], [], 0, 0, 0⟩
  else
    let returns := expectedReturnsOf prices
    let cov := covMatrixOf prices
    let n := returns.length
    let init := List.replicate n ((1 : ℚ) / (n : ℚ))
    let result := solver (negativeSharpe returns cov) init
    if result.success = false then ⟨false, [], [], 0, 0, 0⟩
    else
      let ow := result.x
      let optReturn := ((returns.zip ow).map fun p => p.1 * p.2).sum
      let weights := (prices.tickers.zip ow).filter fun p => (1 : ℚ) / 1000 < p.2
      ⟨true, weights, prices.tickers, optReturn,
       Real.sqrt ((quadForm cov ow : ℚ) : ℝ),
       if 0 < quadForm cov ow then
         ((optReturn - riskFreeRate : ℚ) : ℝ) / Real.sqrt ((quadForm cov ow : ℚ) : ℝ)
       else 0⟩

/-- Example lot: 30 shares of AAPL at 10 dollars (the first lot of the FIFO
example in the specification). -/
def exampleLotA : Lot :=
  ⟨1, some "ACC1", "AAPL", "2024-01-02", 30, 10, 300, "FIFO", none, 30, false⟩

/-- Example lot: 40 shares of AAPL at 12 dollars. -/
def exampleLotB : Lot :=
  ⟨2, some "ACC1", "AAPL", "2024-02-02", 40, 12, 480, "FIFO", none, 40, false⟩

/-- Example `cost_basis` store holding the two open AAPL lots. -/
def exampleCostDb : CostBasisDb := ⟨[exampleLotA, exampleLotB], [], 3⟩

/-- Example lot whose blended average rate (1/3 dollar per share) does not
round exactly: 3 shares with total cost 1 dollar. -/
def exampleAvgLot : Lot :=
  ⟨1, none, "XYZ", "2024-01-02", 3, 1/3, 1, "AVERAGE", none, 3, false⟩

/-- Example store holding the thirds lot. -/
def exampleAvgDb : CostBasisDb := ⟨[exampleAvgLot], [], 2⟩

/-- Example snapshot series for the TWR claims: three snapshots spanning ten
calendar days (two sub-periods), each sub-period doubling the value. -/
def exampleTwrSnapshots : List Snapshot :=
  [⟨1, "2025-01-01", 100⟩, ⟨2, "2025-01-06", 200⟩, ⟨3, "2025-01-11", 400⟩]

/-- Example snapshot pair for the MWR witness. -/
def exampleMwrSnapshots : List Snapshot :=
  [⟨1, "2025-01-01", 100⟩, ⟨2, "2025-12-31", 110⟩]

/-- Example snapshot series for the beta claim: four snapshots, daily
portfolio returns of 10%, 20%, 10% dated Jan 2 to Jan 4. -/
def exampleBetaSnapshots : List Snapshot :=
  [⟨1, "2025-01-01", 100⟩, ⟨2, "2025-01-02", 110⟩, ⟨3, "2025-01-03", 132⟩,
   ⟨4, "2025-01-04", 1452/10⟩]

/-- Example benchmark series for the beta claim: rows from Jan 2 to Jan 4,
daily benchmark returns of 10% and -10% dated Jan 3 and Jan 4 — one day
offset from the portfolio series, so joining by row position and joining by
date pair up different days. -/
def exampleBenchRows : List (String × ℚ) :=
  [("2025-01-02", 100), ("2025-01-03", 110), ("2025-01-04", 99)]

/-- Example snapshot series for the VaR witness: daily returns -10% and
+10%. -/
def exampleVarSnapshots : List Snapshot :=
  [⟨1, "2025-01-01", 100⟩, ⟨2, "2025-01-02", 90⟩, ⟨3, "2025-01-03", 99⟩]

/-- Example three-asset price history for the optimizer claims. -/
def examplePriceDf : PriceDf :=
  ⟨["AAA", "BBB", "CCC"], [[10, 20, 30], [11, 21, 31], [12, 22, 32]]⟩

/-- An SLSQP outcome that satisfies the solver's constraints exactly — the
weights are nonnegative and sum to exactly 1 — but carries one weight of
0.001, below the reporting filter of `optimize_sharpe`. -/
def exampleSolverResult : MinimizeResult := ⟨[4995/10000, 4995/10000, 1/1000], true⟩

theorem getConnection_err : getConnection = Except.error PyErr.attributeError := rfl

theorem get_lots_err (db : CostBasisDb) (t : String) (a : Option String) (i : Bool) :
    get_lots db t a i = Except.error PyErr.attributeError := rfl

theorem calculate_fifo_err (db : CostBasisDb) (t : String) (q : ℚ) (a : Option String) :
    calculate_fifo db t q a = Except.error PyErr.attributeError := rfl

theorem calculate_lifo_err (db : CostBasisDb) (t : String) (q : ℚ) (a : Option String) :
    calculate_lifo db t q a = Except.error PyErr.attributeError := rfl

theorem calculate_average_err (db : CostBasisDb) (t : String) (q : ℚ) (a : Option String) :
    calculate_average db t q a = Except.error PyErr.attributeError := rfl

theorem record_sale_err (db : CostBasisDb) (t : String) (q p : ℚ) (d : String)
    (a : Option String) : record_sale db t q p d a = Except.error PyErr.attributeError := rfl

theorem create_lot_err (db : CostBasisDb) (sm : String) (a : Option String)
    (t ad : String) (q c : ℚ) (lid : Option String) :
    create_lot db sm a t ad q c lid = Except.error PyErr.attributeError := rfl

theorem sync_from_transactions_err (db : CostBasisDb) (sm : String) (a : Option String) :
    sync_from_transactions db sm a = Except.error PyErr.attributeError := rfl

theorem getConnectionFixed_ok : getConnectionFixed = Except.ok () := rfl

theorem getLotsFixed_example :
    getLotsFixed exampleCostDb "AAPL" none false = Except.ok [exampleLotA, exampleLotB] := rfl

/-- C1: `record_sale` never reaches its lot-matching, rollback or commit
logic: on the example store with 70 open AAPL shares it raises
`AttributeError` (through `sqlite3.Connect` in `_get_connection`) instead of
succeeding on a sale of 50 or failing with `InsufficientLots` on a sale of
100.  The remaining conjuncts evaluate the same function with the
one-character connection fix and show that the transactional behaviour the
claim describes is exactly what the rest of the function implements: the
sufficient sale updates both lots atomically (first lot closed at remaining
0, second decremented to 20, cost basis 30×10 + 20×12 = 540), and the
oversell of 100 fails naming the attempted 100 against the available 70 with
the store unchanged. -/
theorem record_sale_blocked_by_connection_typo :
    record_sale exampleCostDb "AAPL" 50 15 "2025-06-01" none
        = Except.error PyErr.attributeError ∧
    recordSaleFixed exampleCostDb "AAPL" 50 15 "2025-06-01" none
        = Except.ok
          (⟨50, 15, 750, 540, 210,
            [⟨1, 30, 10, "2024-01-02"⟩, ⟨2, 20, 12, "2024-02-02"⟩]⟩,
           ⟨[⟨1, some "ACC1", "AAPL", "2024-01-02", 30, 10, 300, "FIFO", none, 0, true⟩,
             ⟨2, some "ACC1", "AAPL", "2024-02-02", 40, 12, 480, "FIFO", none, 20, false⟩],
            [], 3⟩) ∧
    recordSaleFixed exampleCostDb "AAPL" 100 15 "2025-06-01" none
        = Except.error (PyErr.insufficientShares 100 70) := by
  refine ⟨rfl, ?_, ?_⟩
  · unfold recordSaleFixed
    rw [getLotsFixed_example, getConnectionFixed_ok]
    norm_num [saleWalk, exampleLotA, exampleLotB, min_def, applyLotUpdates, quantize2,
      roundHalfUpInt, exampleCostDb, bind, Except.bind]
    rw [if_neg (List.cons_ne_nil _ _)]
    rfl
  · unfold recordSaleFixed
    rw [getLotsFixed_example, getConnectionFixed_ok]
    norm_num [saleWalk, exampleLotA, exampleLotB, min_def, applyLotUpdates, quantize2,
      roundHalfUpInt, exampleCostDb, bind, Except.bind]
    exact fun h => absurd h (List.cons_ne_nil _ _)

/-- C2 (amended): every public `CostBasisCalculator` operation that reaches
`_get_connection` raises `AttributeError` on every call, because the helper
invokes the nonexistent `sqlite3.Connect`; the one exception is
`calculate_cost_basis` called with an effective method outside
FIFO/LIFO/AVERAGE (for instance the constructor-accepted `SPECIFIC_ID`),
which raises `ValueError` before any database access.  Either way no
cost-basis operation ever completes. -/
theorem cost_basis_ops_raise_attributeError :
    ∀ (db : CostBasisDb) (selfMethod ticker acquisition_date sale_date : String)
      (q c p : ℚ) (account lotid : Option String) (inclosed : Bool) (m : Option String),
    create_lot db selfMethod account ticker acquisition_date q c lotid
        = Except.error PyErr.attributeError ∧
    get_lots db ticker account inclosed = Except.error PyErr.attributeError ∧
    calculate_fifo db ticker q account = Except.error PyErr.attributeError ∧
    calculate_lifo db ticker q account = Except.error PyErr.attributeError ∧
    calculate_average db ticker q account = Except.error PyErr.attributeError ∧
    record_sale db ticker q p sale_date account = Except.error PyErr.attributeError ∧
    sync_from_transactions db selfMethod account = Except.error PyErr.attributeError ∧
    calculate_cost_basis db selfMethod ticker q account m =
      Except.error
        (if effectiveMethod selfMethod m = "FIFO" ∨ effectiveMethod selfMethod m = "LIFO" ∨
            effectiveMethod selfMethod m = "AVERAGE"
         then PyErr.attributeError else PyErr.valueError) := by
  intro db sm t ad sd q c p acct lid ic m
  refine ⟨rfl, rfl, rfl, rfl, rfl, rfl, rfl, ?_⟩
  unfold calculate_cost_basis
  by_cases h1 : effectiveMethod sm m = "FIFO"
  · simp [h1, calculate_fifo_err]
  · by_cases h2 : effectiveMethod sm m = "LIFO"
    · simp [h1, h2, calculate_lifo_err]
    · by_cases h3 : effectiveMethod sm m = "AVERAGE"
      · simp [h1, h2, h3, calculate_average_err]
      · simp [h1, h2, h3]

/-- C2 (counterexample to the claim as stated): `calculate_cost_basis` is
listed among the operations said to raise `AttributeError` on every call, but
a call whose effective method is the constructor-accepted `SPECIFIC_ID`
raises `ValueError` at the dispatch, before any database access. -/
theorem calculate_cost_basis_specific_id_raises_valueError :
    calculate_cost_basis exampleCostDb "SPECIFIC_ID" "AAPL" 10 none none
        = Except.error PyErr.valueError ∧
    (Except.error PyErr.valueError : Except PyErr (ℚ × ℚ)) ≠
      Except.error PyErr.attributeError :=
  ⟨rfl, fun h => PyErr.noConfusion (Except.error.inj h)⟩

theorem foldl_add_eq_sum {α : Type} (f : α → ℚ) :
    ∀ (l : List α) (a : ℚ), l.foldl (fun acc x => acc + f x) a = a + (l.map f).sum := by
  intro l
  induction l with
  | nil => intro a; simp
  | cons x xs ih => intro a; simp [ih, add_assoc]

/-- C6 (amended): for a nonempty open-lot list with nonzero total remaining
quantity, `calculate_average`'s arithmetic returns
`round2(current_quantity × round2(Σ total_cost / Σ remaining_quantity))`:
the blended rate is rounded to two decimals (half-up) *before* the
multiplication by `current_quantity`, so full internal precision is not kept
(and, as shipped, the surrounding `calculate_average` never gets this far —
it raises `AttributeError` through `_get_connection`). -/
theorem calculate_average_rounds_rate_first (lots : List Lot) (q : ℚ)
    (h1 : lots ≠ [])
    (h2 : (lots.map Lot.remaining_quantity).sum ≠ 0) :
    calculateAverageLots lots q =
      (quantize2 (q * quantize2 ((lots.map Lot.total_cost).sum /
          (lots.map Lot.remaining_quantity).sum)),
       quantize2 ((lots.map Lot.total_cost).sum / (lots.map Lot.remaining_quantity).sum)) := by
  unfold calculateAverageLots
  rw [if_neg h1]
  simp only [foldl_add_eq_sum, zero_add]
  rw [if_neg h2]

/-- Witness for the amended C6 theorem at the concrete thirds lot. -/
theorem calculate_average_rounds_rate_first_witness :
    calculateAverageLots [exampleAvgLot] 3 =
      (quantize2 (3 * quantize2 (([exampleAvgLot].map Lot.total_cost).sum /
          ([exampleAvgLot].map Lot.remaining_quantity).sum)),
       quantize2 (([exampleAvgLot].map Lot.total_cost).sum /
          ([exampleAvgLot].map Lot.remaining_quantity).sum)) :=
  calculate_average_rounds_rate_first [exampleAvgLot] 3 (List.cons_ne_nil _ _)
    (by norm_num [exampleAvgLot])

/-- C6 (counterexample to the claim as stated): on a single open lot of 3
shares with total cost 1, the claim's value is
`round2(3 × (1/3)) = 1.00`, but the code's early rounding of the blended rate
gives `3 × 0.33 = 0.99`; and the full `calculate_average` call cannot return
at all — it raises `AttributeError`. -/
theorem calculate_average_full_precision_counterexample :
    calculate_average exampleAvgDb "XYZ" 3 none = Except.error PyErr.attributeError ∧
    calculateAverageLots exampleAvgDb.lots 3 = (99/100, 33/100) ∧
    quantize2 (3 * ((exampleAvgDb.lots.map Lot.total_cost).sum /
        (exampleAvgDb.lots.map Lot.remaining_quantity).sum)) = 1 ∧
    ((99 : ℚ)/100) ≠ 1 := by
  refine ⟨rfl, ?_, ?_, by norm_num⟩
  · norm_num [calculateAverageLots, exampleAvgDb, exampleAvgLot, quantize2, roundHalfUpInt]
  · norm_num [exampleAvgDb, exampleAvgLot, quantize2, roundHalfUpInt]

theorem sortSnapshots_twr_example : sortSnapshots exampleTwrSnapshots = exampleTwrSnapshots := rfl

theorem parse_jan1 : parseIsoDatetime "2025-01-01" = some ((20089 : ℤ) : ℚ) := rfl

theorem parse_jan11 : parseIsoDatetime "2025-01-11" = some ((20099 : ℤ) : ℚ) := rfl

theorem twr_example_returns : twrPeriodReturns exampleTwrSnapshots [] = [1, 1] := by
  rw [twrPeriodReturns, sortSnapshots_twr_example]
  norm_num [periodReturnsAux, periodCashFlows, sortPerfTxs, List.insertionSort,
    exampleTwrSnapshots]

theorem twrPeriodReturns_nil_of_short (snapshots : List Snapshot)
    (transactions : List PerfTx) (h : snapshots.length < 2) :
    twrPeriodReturns snapshots transactions = [] := by
  have hlen : (sortSnapshots snapshots).length = snapshots.length :=
    (List.perm_insertionSort _ _).length_eq
  unfold twrPeriodReturns
  rcases hs : sortSnapshots snapshots with _ | ⟨a, _ | ⟨b, u⟩⟩
  · rfl
  · rfl
  · rw [hs] at hlen
    simp at hlen
    omega

/-- C3 (counterexample to the claim as stated): three snapshots spanning ten
calendar days with two doubling sub-periods.  `calculate_twr` reports
`twr = 3` over `periods = 2` sub-period returns while the window is 10
calendar days long, and it annualizes with exponent `365 / 2` — the count of
sub-period returns — which differs from the claim's `365 / 10` calendar-day
annualization. -/
theorem twr_annualizes_by_period_count_counterexample :
    (calculate_twr exampleTwrSnapshots []).twr = 3 ∧
    (calculate_twr exampleTwrSnapshots []).periods = 2 ∧
    windowCalendarDays exampleTwrSnapshots = 10 ∧
    (calculate_twr exampleTwrSnapshots []).annualized_twr ≠
      (1 + ((calculate_twr exampleTwrSnapshots []).twr : ℝ)) ^
        ((365 : ℝ) / ((windowCalendarDays exampleTwrSnapshots : ℤ) : ℝ)) - 1 := by
  have h1 : ¬(exampleTwrSnapshots.length < 2) := by norm_num [exampleTwrSnapshots]
  have hcalc : calculate_twr exampleTwrSnapshots [] =
      ⟨3, 300, 2, (1 + ((3 : ℚ) : ℝ)) ^ ((365 : ℝ) / (2 : ℝ)) - 1⟩ := by
    unfold calculate_twr
    rw [twr_example_returns, if_neg h1, if_neg (List.cons_ne_nil _ _)]
    norm_num [annualizeReturn]
  have hw : windowCalendarDays exampleTwrSnapshots = 10 := by
    unfold windowCalendarDays
    rw [sortSnapshots_twr_example]
    simp [exampleTwrSnapshots, parse_jan1, parse_jan11]
  refine ⟨by rw [hcalc], by rw [hcalc], hw, ?_⟩
  rw [hcalc, hw]
  have hlt : (4 : ℝ) ^ ((365 : ℝ) / ((10 : ℤ) : ℝ)) < (4 : ℝ) ^ ((365 : ℝ) / (2 : ℝ)) := by
    rw [Real.rpow_lt_rpow_left_iff (by norm_num : (1 : ℝ) < 4)]
    norm_num
  intro h
  rw [sub_left_inj] at h
  norm_num at h
  rw [h] at hlt
  norm_num at hlt

/-- C3 (amended): `calculate_twr` annualizes via
`(1 + TWR) ^ (365 / periods) - 1` where `periods` is the COUNT of sub-period
returns (`len(period_returns)`), not the calendar-day length of the
window. -/
theorem twr_annualizes_by_period_count (snapshots : List Snapshot)
    (transactions : List PerfTx) :
    (calculate_twr snapshots transactions).periods =
      (twrPeriodReturns snapshots transactions).length ∧
    (calculate_twr snapshots transactions).annualized_twr =
      (if (twrPeriodReturns snapshots transactions).length = 0 then (0 : ℝ)
       else (1 + ((calculate_twr snapshots transactions).twr : ℝ)) ^
         ((365 : ℝ) / ((twrPeriodReturns snapshots transactions).length : ℝ)) - 1) := by
  by_cases h1 : snapshots.length < 2
  · have hz := twrPeriodReturns_nil_of_short snapshots transactions h1
    simp [calculate_twr, h1, hz]
  · simp only [calculate_twr, h1, if_false]
    by_cases h2 : twrPeriodReturns snapshots transactions = []
    · simp [h2]
    · simp [h2, annualizeReturn, List.length_eq_zero]

/-- C5: whenever the root finder (the opaque `newton(npv, 0.1, maxiter=100,
tol=1e-6)` call) raises instead of converging, `calculate_mwr` returns
normally — no exception escapes — with `mwr = 0.0` and `converged = false`;
the same flags are returned in the fewer-than-two-snapshots branch, which
never reaches the solver. -/
theorem mwr_nonconvergence_reports_flag (solver : (ℝ → ℝ) → Option ℝ)
    (snapshots : List Snapshot) (transactions : List PerfTx)
    (hsolver : ∀ f, solver f = none)
    (hw : snapshots.length < 2 ∨
      ∃ flows, buildCashFlows snapshots transactions = Except.ok flows) :
    ∃ res, calculate_mwr solver snapshots transactions = Except.ok res ∧
      res.mwr = 0 ∧ res.converged = false := by
  unfold calculate_mwr
  by_cases h : snapshots.length < 2
  · rw [if_pos h]
    exact ⟨⟨0, false, 0⟩, rfl, rfl, rfl⟩
  · rw [if_neg h]
    rcases hw with h2 | ⟨flows, hf⟩
    · exact absurd h2 h
    · rw [hf]
      simp only [hsolver]
      exact ⟨⟨0, false, flows.length⟩, rfl, rfl, rfl⟩

theorem sortSnapshots_mwr_example : sortSnapshots exampleMwrSnapshots = exampleMwrSnapshots := rfl

theorem parse_dec31 : parseIsoDatetime "2025-12-31" = some ((20453 : ℤ) : ℚ) := rfl

theorem buildCashFlows_mwr_example :
    buildCashFlows exampleMwrSnapshots [] = Except.ok [(-100, 0), (110, 1456/1461)] := by
  unfold buildCashFlows
  rw [sortSnapshots_mwr_example]
  simp [exampleMwrSnapshots, parse_jan1, parse_dec31, mwrIntermediate, sortPerfTxs,
    List.insertionSort, bind, Except.bind]
  norm_num
  rfl

/-- Witness for the C5 theorem: a two-snapshot window with an
always-diverging solver. -/
theorem mwr_nonconvergence_reports_flag_witness :
    ∃ res, calculate_mwr (fun _ => none) exampleMwrSnapshots [] = Except.ok res ∧
      res.mwr = 0 ∧ res.converged = false :=
  mwr_nonconvergence_reports_flag (fun _ => none) exampleMwrSnapshots [] (fun _ => rfl)
    (Or.inr ⟨[(-100, 0), (110, 1456/1461)], buildCashFlows_mwr_example⟩)

theorem sortFilter_beta_snapshots :
    List.insertionSort (fun a b : Snapshot => strLeB a.timestamp b.timestamp = true)
      (exampleBetaSnapshots.filter fun s => strLeB "2025-01-01" s.timestamp = true)
      = exampleBetaSnapshots := rfl

theorem sortFilter_beta_bench :
    List.insertionSort (fun a b : String × ℚ => strLeB a.1 b.1 = true)
      (exampleBenchRows.filter fun r => strLeB "2025-01-01" r.1 = true)
      = exampleBenchRows := rfl

theorem portReturns_beta_example :
    getPortReturns exampleBetaSnapshots "2025-01-01" = [10, 20, 10] := by
  unfold getPortReturns
  rw [sortFilter_beta_snapshots]
  norm_num [exampleBetaSnapshots, pctChanges]

theorem benchReturns_beta_example :
    getBenchReturns exampleBenchRows "2025-01-01" = [10, -10] := by
  unfold getBenchReturns
  rw [sortFilter_beta_bench]
  norm_num [exampleBenchRows, pctChanges]

/-- C7 (counterexample to the claim as stated): portfolio snapshots on Jan
1-4 and benchmark rows on Jan 2-4.  The code pairs the return series by row
position — (portfolio Jan 2, benchmark Jan 3) and (portfolio Jan 3, benchmark
Jan 4) — giving beta = -1/2, while the claim's inner join on date pairs
(portfolio Jan 3, benchmark Jan 3) and (portfolio Jan 4, benchmark Jan 4),
giving slope 1/2. -/
theorem calculate_beta_positional_join_counterexample :
    (calculate_beta exampleBetaSnapshots exampleBenchRows "2025-01-01").beta = -(1/2) ∧
    betaSpecDateJoin exampleBetaSnapshots exampleBenchRows "2025-01-01" = 1/2 ∧
    (-(1/2) : ℚ) ≠ 1/2 := by
  refine ⟨?_, ?_, by norm_num⟩
  · unfold calculate_beta
    rw [portReturns_beta_example, benchReturns_beta_example]
    norm_num [olsSlope, olsSums, List.zip, List.zipWith]
  · unfold betaSpecDateJoin
    rw [sortFilter_beta_snapshots, sortFilter_beta_bench]
    norm_num [exampleBetaSnapshots, exampleBenchRows, labeledPctChanges,
      List.filterMap, List.find?, olsSlope, olsSums,
      show decide ("2025-01-03" = "2025-01-02") = false from rfl,
      show decide ("2025-01-04" = "2025-01-02") = false from rfl,
      show decide ("2025-01-03" = "2025-01-04") = false from rfl,
      show decide ("2025-01-04" = "2025-01-04") = true from rfl,
      show decide ("2025-01-02" = "2025-01-02") = true from rfl,
      show decide ("2025-01-03" = "2025-01-03") = true from rfl]

/-- C7 (amended): `calculate_beta` pairs the two daily-return series by row
position (the i-th portfolio return with the i-th benchmark return, the
alignment produced by building a DataFrame from two default-integer-indexed
Series), not by date; over those positional pairs beta is the OLS slope of
portfolio on benchmark, alpha is the intercept × 252, and r² and the Pearson
correlation are also reported. -/
theorem calculate_beta_positional_join (snapshots : List Snapshot)
    (benchRows : List (String × ℚ)) (cutoff : String)
    (h : 2 ≤ ((getBenchReturns benchRows cutoff).zip
        (getPortReturns snapshots cutoff)).length) :
    (calculate_beta snapshots benchRows cutoff).beta =
      olsSlope ((getBenchReturns benchRows cutoff).zip (getPortReturns snapshots cutoff)) ∧
    (calculate_beta snapshots benchRows cutoff).alpha =
      olsIntercept ((getBenchReturns benchRows cutoff).zip
        (getPortReturns snapshots cutoff)) * 252 ∧
    (calculate_beta snapshots benchRows cutoff).r_squared =
      olsRSquared ((getBenchReturns benchRows cutoff).zip (getPortReturns snapshots cutoff)) ∧
    (calculate_beta snapshots benchRows cutoff).correlation =
      pearsonCorrelation ((getBenchReturns benchRows cutoff).zip
        (getPortReturns snapshots cutoff)) ∧
    (calculate_beta snapshots benchRows cutoff).data_points =
      ((getBenchReturns benchRows cutoff).zip (getPortReturns snapshots cutoff)).length := by
  have hz := @List.length_zip ℚ ℚ (getBenchReturns benchRows cutoff)
    (getPortReturns snapshots cutoff)
  rw [hz] at h
  have hp : ¬((getPortReturns snapshots cutoff).length < 2 ∨
      (getBenchReturns benchRows cutoff).length < 2) := by
    rcases le_min_iff.mp h with ⟨h1, h2⟩
    omega
  have ha : ¬(((getBenchReturns benchRows cutoff).zip
      (getPortReturns snapshots cutoff)).length < 2) := by
    rw [hz]
    omega
  unfold calculate_beta
  rw [if_neg hp, if_neg ha]
  exact ⟨rfl, rfl, rfl, rfl, rfl⟩

/-- Witness for the amended C7 theorem at the concrete series. -/
theorem calculate_beta_positional_join_witness :
    (calculate_beta exampleBetaSnapshots exampleBenchRows "2025-01-01").beta =
      olsSlope ((getBenchReturns exampleBenchRows "2025-01-01").zip
        (getPortReturns exampleBetaSnapshots "2025-01-01")) :=
  (calculate_beta_positional_join exampleBetaSnapshots exampleBenchRows "2025-01-01"
    (by rw [portReturns_beta_example, benchReturns_beta_example]; norm_num)).1

theorem sum_map_filter_split {α : Type} (f : α → ℚ) (P : α → Prop) [DecidablePred P] :
    ∀ l : List α,
      ((l.filter fun a => P a).map f).sum + ((l.filter fun a => ¬ P a).map f).sum
        = (l.map f).sum := by
  intro l
  induction l with
  | nil => simp
  | cons a t ih =>
    simp only [decide_not] at ih
    by_cases hP : P a
    · simp [hP, List.filter_cons, decide_not]
      linarith [ih]
    · simp [hP, List.filter_cons, decide_not]
      linarith [ih]

/-- C8 (counterexample to the claim as stated): a three-asset price history
and a successful solver outcome whose raw weights satisfy the SLSQP
constraints exactly (nonnegative, summing to exactly 1) but include a weight
of 0.001.  The weights dict `optimize_sharpe` returns keeps only weights
strictly above 0.001, so the returned weights sum to 0.999, missing 1 by
0.001 — far outside the claimed 1e-6 tolerance. -/
theorem optimize_sharpe_sum_tolerance_counterexample :
    (optimize_sharpe examplePriceDf fun _ _ => exampleSolverResult).success = true ∧
    (optimize_sharpe examplePriceDf fun _ _ => exampleSolverResult).weights =
      [("AAA", 999/2000), ("BBB", 999/2000)] ∧
    exampleSolverResult.x.sum = 1 ∧
    (∀ w ∈ exampleSolverResult.x, 0 ≤ w ∧ w ≤ 1) ∧
    ¬(|(((optimize_sharpe examplePriceDf fun _ _ => exampleSolverResult).weights.map
        Prod.snd).sum) - 1| ≤ 1/1000000) := by
  have hcond : ¬(examplePriceDf.rows = [] ∨ examplePriceDf.tickers.length < 2) := by
    decide
  have hmain : (optimize_sharpe examplePriceDf fun _ _ => exampleSolverResult).weights =
      [("AAA", 999/2000), ("BBB", 999/2000)] := by
    unfold optimize_sharpe
    rw [if_neg hcond]
    norm_num [exampleSolverResult, examplePriceDf, List.zip, List.zipWith, List.filter]
  refine ⟨?_, hmain, ?_, ?_, ?_⟩
  · unfold optimize_sharpe
    rw [if_neg hcond]
    norm_num [exampleSolverResult]
  · norm_num [exampleSolverResult]
  · intro w hw
    simp [exampleSolverResult] at hw
    rcases hw with rfl | rfl | rfl <;> norm_num
  · rw [hmain]
    norm_num [abs_le]

/-- C8 (amended): when `optimize_sharpe` reports success, the weights it
returns are exactly the solver's raw weights strictly greater than 0.001
(zipped with the tickers); each returned weight therefore exceeds 0.001, and
lies in [0,1] provided the solver respected its bounds; the sum of the
returned weights equals the solver's raw sum minus the dropped (≤ 0.001)
weights, so it is within 1e-6 of 1 only when the dropped mass is small —
the code itself performs no verification of the tolerance. -/
theorem optimize_sharpe_weights_filtered (prices : PriceDf)
    (solver : (List ℚ → ℝ) → List ℚ → MinimizeResult) (result : MinimizeResult)
    (hrows : prices.rows ≠ []) (hcols : 2 ≤ prices.tickers.length)
    (hres : solver (negativeSharpe (expectedReturnsOf prices) (covMatrixOf prices))
        (List.replicate (expectedReturnsOf prices).length
          ((1 : ℚ) / ((expectedReturnsOf prices).length : ℚ))) = result)
    (hsucc : result.success = true)
    (hlen : result.x.length = prices.tickers.length) :
    (optimize_sharpe prices solver).success = true ∧
    (optimize_sharpe prices solver).weights =
      (prices.tickers.zip result.x).filter (fun p => (1 : ℚ) / 1000 < p.2) ∧
    (∀ p ∈ (optimize_sharpe prices solver).weights, (1 : ℚ) / 1000 < p.2) ∧
    ((∀ w ∈ result.x, 0 ≤ w ∧ w ≤ 1) →
        ∀ p ∈ (optimize_sharpe prices solver).weights, 0 ≤ p.2 ∧ p.2 ≤ 1) ∧
    ((optimize_sharpe prices solver).weights.map Prod.snd).sum +
        (((prices.tickers.zip result.x).filter fun p => ¬((1 : ℚ) / 1000 < p.2)).map
          Prod.snd).sum = result.x.sum := by
  have hcond : ¬(prices.rows = [] ∨ prices.tickers.length < 2) := by
    push_neg
    exact ⟨hrows, by omega⟩
  have hopt : optimize_sharpe prices solver =
      ⟨true, (prices.tickers.zip result.x).filter (fun p => (1 : ℚ) / 1000 < p.2),
       prices.tickers,
       ((((expectedReturnsOf prices)).zip result.x).map fun p => p.1 * p.2).sum,
       Real.sqrt ((quadForm (covMatrixOf prices) result.x : ℚ) : ℝ),
       if 0 < quadForm (covMatrixOf prices) result.x then
         (((((expectedReturnsOf prices).zip result.x).map fun p => p.1 * p.2).sum
             - riskFreeRate : ℚ) : ℝ) /
           Real.sqrt ((quadForm (covMatrixOf prices) result.x : ℚ) : ℝ)
       else 0⟩ := by
    simp only [optimize_sharpe]
    rw [if_neg hcond, hres, hsucc]
    simp
  refine ⟨by rw [hopt], by rw [hopt], ?_, ?_, ?_⟩
  · rw [hopt]
    intro p hp
    exact of_decide_eq_true (List.mem_filter.mp hp).2
  · rw [hopt]
    intro hbounds p hp
    exact hbounds p.2 (List.of_mem_zip (List.mem_filter.mp hp).1).2
  · rw [hopt]
    have hsplit := sum_map_filter_split (Prod.snd) (fun p : String × ℚ => (1 : ℚ) / 1000 < p.2)
      (prices.tickers.zip result.x)
    have hzip : (prices.tickers.zip result.x).map Prod.snd = result.x :=
      List.map_snd_zip _ _ (by omega)
    rw [hzip] at hsplit
    exact hsplit

/-- Witness for the amended C8 theorem at the concrete data. -/
theorem optimize_sharpe_weights_filtered_witness :
    (optimize_sharpe examplePriceDf fun _ _ => exampleSolverResult).success = true ∧
    (optimize_sharpe examplePriceDf fun _ _ => exampleSolverResult).weights =
      (examplePriceDf.tickers.zip exampleSolverResult.x).filter
        fun p => (1 : ℚ) / 1000 < p.2 :=
  ⟨(optimize_sharpe_weights_filtered examplePriceDf (fun _ _ => exampleSolverResult)
      exampleSolverResult (by decide) (by decide) rfl rfl (by decide)).1,
   (optimize_sharpe_weights_filtered examplePriceDf (fun _ _ => exampleSolverResult)
      exampleSolverResult (by decide) (by decide) rfl rfl (by decide)).2.1⟩

theorem compareTicker_fields (prev curr : List (String × HoldVals)) (cd t : String)
    (l : List InfTx) (h : compareTicker prev curr cd t = Except.ok l) :
    ∀ tx ∈ l, tx.transaction_date = cd ∧ tx.source = "snapshot_inference" := by
  unfold compareTicker at h
  rcases hfc : List.find? (fun p => decide (p.1 = t)) curr with _ | pc <;>
    rcases hfp : List.find? (fun p => decide (p.1 = t)) prev with _ | pp <;>
    simp only [hfc, hfp, Option.map_some', Option.map_none', Option.getD_some,
      Option.getD_none] at h <;>
    split_ifs at h <;>
    (try simp at h) <;>
    (try (subst h; intro tx htx; simp at htx)) <;>
    (try (subst htx; exact ⟨rfl, rfl⟩))

theorem compareTickers_fields (prev curr : List (String × HoldVals)) (cd : String) :
    ∀ (ts : List String) (l : List InfTx),
      compareTickers prev curr cd ts = Except.ok l →
      ∀ tx ∈ l, tx.transaction_date = cd ∧ tx.source = "snapshot_inference" := by
  intro ts
  induction ts with
  | nil =>
    intro l h
    cases h
    simp
  | cons t ts ih =>
    intro l h
    unfold compareTickers at h
    cases hh : compareTicker prev curr cd t with
    | error e => rw [hh] at h; simp [bind, Except.bind] at h
    | ok here =>
      rw [hh] at h
      cases hr : compareTickers prev curr cd ts with
      | error e => rw [hr] at h; simp [bind, Except.bind] at h
      | ok rest =>
        rw [hr] at h
        simp only [bind, Except.bind, pure, Except.pure, Except.ok.injEq] at h
        subst h
        intro tx htx
        rcases List.mem_append.mp htx with hmem | hmem
        · exact compareTicker_fields prev curr cd t here hh tx hmem
        · exact ih rest hr tx hmem

theorem compareSnapshots_fields (db : InfDb) (p c : Snapshot) (l : List InfTx)
    (h : compareSnapshots db p c = Except.ok l) :
    ∀ tx ∈ l, tx.transaction_date = parseSnapshotDate c.timestamp ∧
      tx.source = "snapshot_inference" :=
  compareTickers_fields _ _ _ _ l h

theorem inferPairs_subset (db : InfDb) (existing : List String) (skip : Bool) :
    ∀ (pairs : List (Snapshot × Snapshot)) (pr : Snapshot × Snapshot), pr ∈ pairs →
      ¬(skip ∧ parseSnapshotDate pr.2.timestamp ∈ existing) →
      ∀ l, compareSnapshots db pr.1 pr.2 = Except.ok l →
      ∀ tx ∈ l, tx ∈ (inferPairs db existing skip pairs).1 := by
  intro pairs
  induction pairs with
  | nil => intro pr hpr; cases hpr
  | cons p ps ih =>
    intro pr hpr hskip l hl tx htx
    unfold inferPairs
    rcases List.mem_cons.mp hpr with rfl | hmem
    · rw [if_neg hskip, hl]
      exact List.mem_append_left _ htx
    · by_cases hc : skip ∧ parseSnapshotDate p.2.timestamp ∈ existing
      · rw [if_pos hc]
        exact ih pr hmem hskip l hl tx htx
      · rw [if_neg hc]
        cases hcomp : compareSnapshots db p.1 p.2 with
        | error e => exact ih pr hmem hskip l hl tx htx
        | ok txs => exact List.mem_append_right _ (ih pr hmem hskip l hl tx htx)

theorem inferPairs_nil (db : InfDb) (existing : List String) (skip : Bool) :
    ∀ (pairs : List (Snapshot × Snapshot)),
      (∀ pr ∈ pairs, ∀ l, compareSnapshots db pr.1 pr.2 = Except.ok l → l ≠ [] →
        (skip ∧ parseSnapshotDate pr.2.timestamp ∈ existing)) →
      (inferPairs db existing skip pairs).1 = [] := by
  intro pairs
  induction pairs with
  | nil => intro _; rfl
  | cons p ps ih =>
    intro hall
    have hrest : (inferPairs db existing skip ps).1 = [] :=
      ih fun pr hpr => hall pr (List.mem_cons_of_mem _ hpr)
    unfold inferPairs
    by_cases hc : skip ∧ parseSnapshotDate p.2.timestamp ∈ existing
    · rw [if_pos hc]
      exact hrest
    · rw [if_neg hc]
      cases hcomp : compareSnapshots db p.1 p.2 with
      | error e => exact hrest
      | ok txs =>
        cases txs with
        | nil => simpa using hrest
        | cons a rest =>
          exact absurd (hall p (List.mem_cons_self _ _) _ hcomp (List.cons_ne_nil _ _)) hc

theorem mem_existingInferenceDates (db : InfDb) (d : String) :
    d ∈ existingInferenceDates db ↔
      ∃ tx ∈ db.txs, tx.source = "snapshot_inference" ∧ tx.transaction_date = d := by
  simp [existingInferenceDates, List.mem_dedup, List.mem_map, List.mem_filter]
  constructor
  · rintro ⟨tx, ⟨htx, hsrc⟩, hdate⟩
    exact ⟨tx, htx, hsrc, hdate⟩
  · rintro ⟨tx, htx, hsrc, hdate⟩
    exact ⟨tx, ⟨htx, hsrc⟩, hdate⟩

/-- C4: running `infer_all_transactions(skip_existing=True)`, saving the
inferred transactions, and running it again on the unchanged snapshot data
yields zero newly inferred transactions: every pair whose comparison would
synthesize transactions has its later snapshot's date among the stored
`snapshot_inference` dates after the first save, so the pair is skipped; the
remaining pairs synthesize nothing (or error) on both runs. -/
theorem inference_idempotent (db : InfDb) :
    (inferAllTransactions
        (saveInferredTransactions db (inferAllTransactions db true).transactions).1
        true).transactions = [] ∧
    (inferAllTransactions
        (saveInferredTransactions db (inferAllTransactions db true).transactions).1
        true).inferred = 0 := by
  set r1 := inferAllTransactions db true with hr1
  set db2 := (saveInferredTransactions db r1.transactions).1 with hdb2
  have hsnap : getSnapshotsChronological db2 = getSnapshotsChronological db := rfl
  by_cases hlen : (getSnapshotsChronological db2).length < 2
  · have hres : inferAllTransactions db2 true = ⟨0, 0, 0, []⟩ := by
      unfold inferAllTransactions
      rw [if_pos hlen]
    rw [hres]
    exact ⟨rfl, rfl⟩
  · have hlen2 : ¬(getSnapshotsChronological db).length < 2 := by
      rw [← hsnap]
      exact hlen
    have hr1t : r1.transactions = (inferPairs db (existingInferenceDates db) true
        (consecutivePairs (getSnapshotsChronological db))).1 := by
      rw [hr1]
      unfold inferAllTransactions
      rw [if_neg hlen2]
      simp
    have hmain : (inferPairs db2 (existingInferenceDates db2) true
        (consecutivePairs (getSnapshotsChronological db2))).1 = [] := by
      apply inferPairs_nil
      intro pr hpr l hl hlne
      refine ⟨rfl, ?_⟩
      have hcmp : compareSnapshots db pr.1 pr.2 = Except.ok l := hl
      by_cases hd : parseSnapshotDate pr.2.timestamp ∈ existingInferenceDates db
      · rcases (mem_existingInferenceDates db _).mp hd with ⟨tx, htx, hsrc, hdate⟩
        exact (mem_existingInferenceDates db2 _).mpr
          ⟨tx, List.mem_append_left _ htx, hsrc, hdate⟩
      · rcases List.exists_mem_of_ne_nil l hlne with ⟨tx, htx⟩
        have hfields := compareSnapshots_fields db pr.1 pr.2 l hcmp tx htx
        have htx1 : tx ∈ r1.transactions := by
          rw [hr1t]
          exact inferPairs_subset db (existingInferenceDates db) true
            (consecutivePairs (getSnapshotsChronological db)) pr hpr
            (fun hcontra => hd hcontra.2) l hcmp tx htx
        exact (mem_existingInferenceDates db2 _).mpr
          ⟨tx, List.mem_append_right _ htx1, hfields.2, hfields.1⟩
    constructor
    · show (inferAllTransactions db2 true).transactions = []
      unfold inferAllTransactions
      rw [if_neg hlen]
      simpa using hmain
    · show (inferAllTransactions db2 true).inferred = 0
      unfold inferAllTransactions
      rw [if_neg hlen]
      simp [hmain]

theorem sorted_getD_mono (s : List ℚ) (hs : s.Sorted (· ≤ ·)) (i j : Nat)
    (hij : i ≤ j) (hj : j < s.length) : s.getD i 0 ≤ s.getD j 0 := by
  have hi : i < s.length := lt_of_le_of_lt hij hj
  rw [List.getD_eq_get s 0 hi, List.getD_eq_get s 0 hj]
  rcases eq_or_lt_of_le hij with rfl | hlt
  · exact le_refl _
  · exact hs.rel_get_of_lt hlt

theorem interpAt_mono (s : List ℚ) (hs : s.Sorted (· ≤ ·)) (h1 h2 : ℚ)
    (h0 : 0 ≤ h1) (h12 : h1 ≤ h2) (hub : h2 ≤ (s.length : ℚ) - 1) :
    interpAt s h1 ≤ interpAt s h2 := by
  have zfl1 : 0 ≤ ⌊h1⌋ := Int.floor_nonneg.mpr h0
  have zord : ⌊h1⌋ ≤ ⌊h2⌋ := Int.floor_le_floor h12
  have zfl2 : 0 ≤ ⌊h2⌋ := le_trans zfl1 zord
  have hn1 : 1 ≤ s.length := by
    rcases Nat.eq_zero_or_pos s.length with hz | hp
    · exfalso
      rw [hz] at hub
      push_cast at hub
      linarith
    · exact hp
  have zub : ⌊h2⌋ ≤ (s.length : ℤ) - 1 := by
    have hcast : (s.length : ℚ) - 1 = (((s.length : ℤ) - 1 : ℤ) : ℚ) := by push_cast; ring
    have := Int.floor_le_floor hub
    rw [hcast, Int.floor_intCast] at this
    exact this
  unfold interpAt
  set n := s.length with hn
  set i1 := (⌊h1⌋).toNat with hi1def
  set i2 := (⌊h2⌋).toNat with hi2def
  have hi1z : (i1 : ℤ) = ⌊h1⌋ := Int.toNat_of_nonneg zfl1
  have hi2z : (i2 : ℤ) = ⌊h2⌋ := Int.toNat_of_nonneg zfl2
  have hle1 : ((i1 : ℕ) : ℚ) ≤ h1 := by
    have hf := Int.floor_le h1
    rw [← hi1z] at hf
    exact_mod_cast hf
  have hlt1 : h1 < ((i1 : ℕ) : ℚ) + 1 := by
    have hf := Int.lt_floor_add_one h1
    rw [← hi1z] at hf
    exact_mod_cast hf
  have hle2 : ((i2 : ℕ) : ℚ) ≤ h2 := by
    have hf := Int.floor_le h2
    rw [← hi2z] at hf
    exact_mod_cast hf
  have hii : i1 ≤ i2 := by omega
  have hi2n : i2 ≤ n - 1 := by omega
  rcases eq_or_lt_of_le hii with heq | hlt
  · rw [heq]
    by_cases hbr : i2 + 1 < n
    · rw [if_pos hbr, if_pos hbr]
      have hd : 0 ≤ s.getD (i2 + 1) 0 - s.getD i2 0 :=
        sub_nonneg.mpr (sorted_getD_mono s hs i2 (i2 + 1) (by omega) hbr)
      have hmul : (h1 - (i2 : ℚ)) * (s.getD (i2 + 1) 0 - s.getD i2 0) ≤
          (h2 - (i2 : ℚ)) * (s.getD (i2 + 1) 0 - s.getD i2 0) :=
        mul_le_mul_of_nonneg_right (by linarith) hd
      linarith
    · rw [if_neg hbr, if_neg hbr]
  · have hn2 : i1 + 1 < n := by omega
    rw [if_pos hn2]
    have hd1 : 0 ≤ s.getD (i1 + 1) 0 - s.getD i1 0 :=
      sub_nonneg.mpr (sorted_getD_mono s hs i1 (i1 + 1) (by omega) hn2)
    have key1 : s.getD i1 0 + (h1 - (i1 : ℚ)) * (s.getD (i1 + 1) 0 - s.getD i1 0) ≤
        s.getD (i1 + 1) 0 := by
      have ht1 : h1 - (i1 : ℚ) ≤ 1 := by linarith
      have := mul_le_of_le_one_left hd1 ht1
      linarith
    have key2 : s.getD (i1 + 1) 0 ≤ s.getD i2 0 :=
      sorted_getD_mono s hs (i1 + 1) i2 (by omega) (by omega)
    by_cases hbr2 : i2 + 1 < n
    · rw [if_pos hbr2]
      have hd2 : 0 ≤ s.getD (i2 + 1) 0 - s.getD i2 0 :=
        sub_nonneg.mpr (sorted_getD_mono s hs i2 (i2 + 1) (by omega) hbr2)
      have hp2 : 0 ≤ (h2 - (i2 : ℚ)) * (s.getD (i2 + 1) 0 - s.getD i2 0) :=
        mul_nonneg (by linarith) hd2
      linarith
    · rw [if_neg hbr2]
      have key3 : s.getD i2 0 ≤ s.getD (n - 1) 0 :=
        sorted_getD_mono s hs i2 (n - 1) (by omega) (by omega)
      linarith

theorem percentile_mono (xs : List ℚ) (q1 q2 : ℚ) (h0 : 0 ≤ q1) (h12 : q1 ≤ q2)
    (h100 : q2 ≤ 100) (hlen : 1 ≤ xs.length) :
    percentile xs q1 ≤ percentile xs q2 := by
  unfold percentile
  have hsorted : (List.insertionSort (fun a b : ℚ => a ≤ b) xs).Sorted (· ≤ ·) :=
    List.sorted_insertionSort _ xs
  have hslen : (List.insertionSort (fun a b : ℚ => a ≤ b) xs).length = xs.length :=
    (List.perm_insertionSort _ _).length_eq
  have hpos : (0 : ℚ) ≤ (xs.length : ℚ) - 1 := by
    have : (1 : ℚ) ≤ (xs.length : ℚ) := by exact_mod_cast hlen
    linarith
  apply interpAt_mono _ hsorted
  · positivity
  · apply mul_le_mul_of_nonneg_right _ hpos
    linarith
  · rw [hslen]
    have h2 : q2 / 100 ≤ 1 := by linarith
    nlinarith

/-- C9: for a fixed snapshot history with at least two daily returns and a
nonnegative latest total value, both the percentile VaR and its dollar
scaling returned by `calculate_value_at_risk` are non-increasing as the
confidence level increases. -/
theorem var_monotone_in_confidence (snapshots : List Snapshot) (cutoff : String)
    (c1 c2 : ℚ) (h0 : 0 ≤ c1) (h12 : c1 ≤ c2) (h1 : c2 ≤ 1)
    (hcv : 0 ≤ currentValueOf snapshots)
    (hn : 2 ≤ (getPortReturns snapshots cutoff).length) :
    (calculate_value_at_risk snapshots cutoff c2).var_percent ≤
      (calculate_value_at_risk snapshots cutoff c1).var_percent ∧
    (calculate_value_at_risk snapshots cutoff c2).var_amount ≤
      (calculate_value_at_risk snapshots cutoff c1).var_amount := by
  have hnot : ¬((getPortReturns snapshots cutoff).length < 2) := by omega
  have hperc : percentile (getPortReturns snapshots cutoff) ((1 - c2) * 100) ≤
      percentile (getPortReturns snapshots cutoff) ((1 - c1) * 100) := by
    apply percentile_mono _ _ _ (by linarith) (by linarith) (by linarith) (by omega)
  unfold calculate_value_at_risk
  rw [if_neg hnot, if_neg hnot]
  refine ⟨by simpa using hperc, ?_⟩
  show currentValueOf snapshots * (percentile (getPortReturns snapshots cutoff)
      ((1 - c2) * 100) / 100) ≤ currentValueOf snapshots *
      (percentile (getPortReturns snapshots cutoff) ((1 - c1) * 100) / 100)
  apply mul_le_mul_of_nonneg_left _ hcv
  linarith

theorem sortFilter_var_snapshots :
    List.insertionSort (fun a b : Snapshot => strLeB a.timestamp b.timestamp = true)
      (exampleVarSnapshots.filter fun s => strLeB "2000" s.timestamp = true)
      = exampleVarSnapshots := rfl

theorem portReturns_var_example :
    getPortReturns exampleVarSnapshots "2000" = [-10, 10] := by
  unfold getPortReturns
  rw [sortFilter_var_snapshots]
  norm_num [exampleVarSnapshots, pctChanges]

theorem currentValue_var_example : currentValueOf exampleVarSnapshots = 99 := rfl

/-- Witness for the C9 theorem at the concrete history, comparing confidence
levels 0.90 and 0.95. -/
theorem var_monotone_in_confidence_witness :
    (calculate_value_at_risk exampleVarSnapshots "2000" (19/20)).var_percent ≤
      (calculate_value_at_risk exampleVarSnapshots "2000" (9/10)).var_percent ∧
    (calculate_value_at_risk exampleVarSnapshots "2000" (19/20)).var_amount ≤
      (calculate_value_at_risk exampleVarSnapshots "2000" (9/10)).var_amount :=
  var_monotone_in_confidence exampleVarSnapshots "2000" (9/10) (19/20)
    (by norm_num) (by norm_num) (by norm_num)
    (by rw [currentValue_var_example]; norm_num)
    (by rw [portReturns_var_example]; norm_num)

theorem addHolding_keys (acc : List SectorAcc) (h : AttrRow) :
    (addHoldingToSectors acc h).map SectorAcc.sector =
      if acc.any (fun s => s.sector = h.sector) then acc.map SectorAcc.sector
      else acc.map SectorAcc.sector ++ [h.sector] := by
  unfold addHoldingToSectors
  split_ifs with hc
  · rw [List.map_map]
    apply List.map_congr_left
    intro s _
    by_cases hs : s.sector = h.sector <;> simp [hs, sectorUpd]
  · simp [sectorNew]

theorem addHolding_keys_nodup (acc : List SectorAcc) (h : AttrRow)
    (hnd : (acc.map SectorAcc.sector).Nodup) :
    ((addHoldingToSectors acc h).map SectorAcc.sector).Nodup := by
  rw [addHolding_keys]
  split_ifs with hc
  · exact hnd
  · rw [List.nodup_append]
    refine ⟨hnd, List.nodup_singleton _, ?_⟩
    intro a ha hb
    rcases List.mem_singleton.mp hb with rfl
    rcases List.mem_map.mp ha with ⟨s, hs, hsec⟩
    exact hc (List.any_eq_true.mpr ⟨s, hs, decide_eq_true hsec⟩)

theorem sectorUpd_sector (h : AttrRow) (s : SectorAcc) : (sectorUpd h s).sector = s.sector :=
  rfl

theorem map_update_no_match (h : AttrRow) (rest : List SectorAcc)
    (hno : ∀ r ∈ rest, r.sector ≠ h.sector) :
    (rest.map fun s => if s.sector = h.sector then sectorUpd h s else s) = rest := by
  have hid : ∀ r ∈ rest,
      (if r.sector = h.sector then sectorUpd h r else r) = r := by
    intro r hr
    rw [if_neg (hno r hr)]
  rw [List.map_congr_left hid, List.map_id']

theorem update_filter_sum (h : AttrRow) (k : Option String) (f : SectorAcc → ℚ)
    (g : AttrRow → ℚ) (hcompat : ∀ s : SectorAcc, f (sectorUpd h s) = f s + g h) :
    ∀ acc : List SectorAcc, (acc.map SectorAcc.sector).Nodup →
      acc.any (fun s => s.sector = h.sector) = true →
      (((acc.map fun s => if s.sector = h.sector then sectorUpd h s else s).filter
          fun s => s.sector = k).map f).sum
        = ((acc.filter fun s => s.sector = k).map f).sum
          + (if h.sector = k then g h else 0) := by
  intro acc
  induction acc with
  | nil => intro _ hc; simp at hc
  | cons s rest ih =>
    intro hnd hc
    have hnds : s.sector ∉ rest.map SectorAcc.sector := (List.nodup_cons.mp hnd).1
    have hndr : (rest.map SectorAcc.sector).Nodup := (List.nodup_cons.mp hnd).2
    by_cases hs : s.sector = h.sector
    · have hrestno : ∀ r ∈ rest, r.sector ≠ h.sector := by
        intro r hr hrs
        exact hnds (hs ▸ hrs ▸ List.mem_map_of_mem SectorAcc.sector hr)
      rw [List.map_cons, if_pos hs, map_update_no_match h rest hrestno]
      by_cases hk : s.sector = k
      · have hk2 : h.sector = k := hs ▸ hk
        have hrestnil : rest.filter (fun s => s.sector = k) = [] := by
          rw [List.filter_eq_nil]
          intro r hr
          simp only [decide_eq_true_eq]
          intro hrk
          exact hrestno r hr (by rw [hrk, hk2])
        rw [List.filter_cons_of_pos (by simpa [sectorUpd_sector, hs] using hk2),
          List.filter_cons_of_pos (by simpa using hk), hrestnil]
        simp [hcompat s, hk2]
      · rw [List.filter_cons_of_neg (by simpa [sectorUpd_sector, hs] using
            (fun hrk => hk (hs.trans hrk) : ¬(h.sector = k))),
          List.filter_cons_of_neg (by simpa using hk)]
        rw [if_neg (fun hrk => hk (hs.trans hrk))]
        simp
    · have hcrest : rest.any (fun s => s.sector = h.sector) = true := by
        rcases List.any_eq_true.mp hc with ⟨r, hr, hrs⟩
        rcases List.mem_cons.mp hr with rfl | hr2
        · exact absurd (of_decide_eq_true hrs) hs
        · exact List.any_eq_true.mpr ⟨r, hr2, hrs⟩
      have hrec := ih hndr hcrest
      rw [List.map_cons, if_neg hs]
      by_cases hk : s.sector = k
      · rw [List.filter_cons_of_pos (by simpa using hk),
          List.filter_cons_of_pos (by simpa using hk)]
        simp only [List.map_cons, List.sum_cons]
        linarith [hrec]
      · rw [List.filter_cons_of_neg (by simpa using hk),
          List.filter_cons_of_neg (by simpa using hk)]
        exact hrec

theorem addHolding_filter_sum (h : AttrRow) (k : Option String) (f : SectorAcc → ℚ)
    (g : AttrRow → ℚ) (hcompat : ∀ s : SectorAcc, f (sectorUpd h s) = f s + g h)
    (hnew : f (sectorNew h) = g h)
    (acc : List SectorAcc) (hnd : (acc.map SectorAcc.sector).Nodup) :
    (((addHoldingToSectors acc h).filter fun s => s.sector = k).map f).sum
      = ((acc.filter fun s => s.sector = k).map f).sum
        + (if h.sector = k then g h else 0) := by
  unfold addHoldingToSectors
  by_cases hc : (acc.any fun s => s.sector = h.sector) = true
  · rw [if_pos hc]
    exact update_filter_sum h k f g hcompat acc hnd hc
  · rw [if_neg hc, List.filter_append, List.map_append, List.sum_append]
    by_cases hk : h.sector = k
    · rw [List.filter_cons_of_pos (by simpa [sectorNew] using hk)]
      simp [hnew, hk]
    · rw [List.filter_cons_of_neg (by simpa [sectorNew] using hk)]
      simp [hk]

theorem update_total_sum (h : AttrRow) (f : SectorAcc → ℚ) (g : AttrRow → ℚ)
    (hcompat : ∀ s : SectorAcc, f (sectorUpd h s) = f s + g h) :
    ∀ acc : List SectorAcc, (acc.map SectorAcc.sector).Nodup →
      acc.any (fun s => s.sector = h.sector) = true →
      ((acc.map fun s => if s.sector = h.sector then sectorUpd h s else s).map f).sum
        = (acc.map f).sum + g h := by
  intro acc
  induction acc with
  | nil => intro _ hc; simp at hc
  | cons s rest ih =>
    intro hnd hc
    have hnds : s.sector ∉ rest.map SectorAcc.sector := (List.nodup_cons.mp hnd).1
    have hndr : (rest.map SectorAcc.sector).Nodup := (List.nodup_cons.mp hnd).2
    by_cases hs : s.sector = h.sector
    · have hrestno : ∀ r ∈ rest, r.sector ≠ h.sector := by
        intro r hr hrs
        exact hnds (hs ▸ hrs ▸ List.mem_map_of_mem SectorAcc.sector hr)
      rw [List.map_cons, if_pos hs, map_update_no_match h rest hrestno]
      simp only [List.map_cons, List.sum_cons, hcompat s]
      ring
    · have hcrest : rest.any (fun s => s.sector = h.sector) = true := by
        rcases List.any_eq_true.mp hc with ⟨r, hr, hrs⟩
        rcases List.mem_cons.mp hr with rfl | hr2
        · exact absurd (of_decide_eq_true hrs) hs
        · exact List.any_eq_true.mpr ⟨r, hr2, hrs⟩
      rw [List.map_cons, if_neg hs]
      simp only [List.map_cons, List.sum_cons, ih hndr hcrest]
      ring

theorem addHolding_total_sum (h : AttrRow) (f : SectorAcc → ℚ) (g : AttrRow → ℚ)
    (hcompat : ∀ s : SectorAcc, f (sectorUpd h s) = f s + g h)
    (hnew : f (sectorNew h) = g h)
    (acc : List SectorAcc) (hnd : (acc.map SectorAcc.sector).Nodup) :
    ((addHoldingToSectors acc h).map f).sum = (acc.map f).sum + g h := by
  unfold addHoldingToSectors
  by_cases hc : (acc.any fun s => s.sector = h.sector) = true
  · rw [if_pos hc]
    exact update_total_sum h f g hcompat acc hnd hc
  · rw [if_neg hc, List.map_append, List.sum_append]
    simp [hnew]

theorem foldl_keys_nodup (H : List AttrRow) :
    ∀ acc : List SectorAcc, (acc.map SectorAcc.sector).Nodup →
      ((H.foldl addHoldingToSectors acc).map SectorAcc.sector).Nodup := by
  induction H with
  | nil => intro acc hnd; exact hnd
  | cons h t ih =>
    intro acc hnd
    rw [List.foldl_cons]
    exact ih _ (addHolding_keys_nodup acc h hnd)

theorem aggregate_filter_sum (k : Option String) (f : SectorAcc → ℚ) (g : AttrRow → ℚ)
    (hcompat : ∀ (h : AttrRow) (s : SectorAcc), f (sectorUpd h s) = f s + g h)
    (hnew : ∀ h : AttrRow, f (sectorNew h) = g h) :
    ∀ (H : List AttrRow) (acc : List SectorAcc), (acc.map SectorAcc.sector).Nodup →
      (((H.foldl addHoldingToSectors acc).filter fun s => s.sector = k).map f).sum
        = ((acc.filter fun s => s.sector = k).map f).sum
          + ((H.filter fun h => h.sector = k).map g).sum := by
  intro H
  induction H with
  | nil => intro acc _; simp
  | cons h t ih =>
    intro acc hnd
    rw [List.foldl_cons,
      ih (addHoldingToSectors acc h) (addHolding_keys_nodup acc h hnd),
      addHolding_filter_sum h k f g (hcompat h) (hnew h) acc hnd]
    by_cases hk : h.sector = k
    · rw [List.filter_cons_of_pos (by simpa using hk), if_pos hk]
      simp only [List.map_cons, List.sum_cons]
      ring
    · rw [List.filter_cons_of_neg (by simpa using hk), if_neg hk]
      ring

theorem aggregate_total_sum (f : SectorAcc → ℚ) (g : AttrRow → ℚ)
    (hcompat : ∀ (h : AttrRow) (s : SectorAcc), f (sectorUpd h s) = f s + g h)
    (hnew : ∀ h : AttrRow, f (sectorNew h) = g h) :
    ∀ (H : List AttrRow) (acc : List SectorAcc), (acc.map SectorAcc.sector).Nodup →
      ((H.foldl addHoldingToSectors acc).map f).sum
        = (acc.map f).sum + (H.map g).sum := by
  intro H
  induction H with
  | nil => intro acc _; simp
  | cons h t ih =>
    intro acc hnd
    rw [List.foldl_cons,
      ih (addHoldingToSectors acc h) (addHolding_keys_nodup acc h hnd),
      addHolding_total_sum h f g (hcompat h) (hnew h) acc hnd]
    simp only [List.map_cons, List.sum_cons]
    ring

theorem filter_eq_singleton_of_nodup (agg : List SectorAcc) (a : SectorAcc)
    (hnd : (agg.map SectorAcc.sector).Nodup) (ha : a ∈ agg) :
    agg.filter (fun s => s.sector = a.sector) = [a] := by
  induction agg with
  | nil => cases ha
  | cons s rest ih =>
    have hnds : s.sector ∉ rest.map SectorAcc.sector := (List.nodup_cons.mp hnd).1
    have hndr : (rest.map SectorAcc.sector).Nodup := (List.nodup_cons.mp hnd).2
    rcases List.mem_cons.mp ha with rfl | hmem
    · rw [List.filter_cons_of_pos (by simp)]
      have : rest.filter (fun s => s.sector = a.sector) = [] := by
        rw [List.filter_eq_nil]
        intro r hr
        simp only [decide_eq_true_eq]
        intro hrs
        exact hnds (hrs ▸ List.mem_map_of_mem SectorAcc.sector hr)
      rw [this]
    · have hsa : s.sector ≠ a.sector := by
        intro hEq
        exact hnds (hEq ▸ List.mem_map_of_mem SectorAcc.sector hmem)
      rw [List.filter_cons_of_neg (by simpa using hsa)]
      exact ih hndr hmem

/-- C10: every sector row returned by `calculate_sector_attribution` carries
exactly the per-sector sums (start value, end value, weight, contribution) of
the holding attributions returned by `calculate_holding_attribution` over the
same window — the sector report is a pure roll-up of the holding report — and
consequently the total contribution summed over sectors equals the total
contribution summed over holdings. -/
theorem sector_attribution_is_rollup (db : AttrDb) (cutoff : String) :
    (∀ srow ∈ calculate_sector_attribution db cutoff,
      srow.start_value = (((calculate_holding_attribution db cutoff).filter
          fun h => h.sector = srow.sector).map AttrRow.start_value).sum ∧
      srow.end_value = (((calculate_holding_attribution db cutoff).filter
          fun h => h.sector = srow.sector).map AttrRow.end_value).sum ∧
      srow.weight = (((calculate_holding_attribution db cutoff).filter
          fun h => h.sector = srow.sector).map AttrRow.weight).sum ∧
      srow.contribution = (((calculate_holding_attribution db cutoff).filter
          fun h => h.sector = srow.sector).map AttrRow.contribution).sum) ∧
    ((calculate_sector_attribution db cutoff).map SectorRow.contribution).sum =
      ((calculate_holding_attribution db cutoff).map AttrRow.contribution).sum := by
  set H := calculate_holding_attribution db cutoff with hH
  have hnd : ((aggregateSectors H).map SectorAcc.sector).Nodup := by
    apply foldl_keys_nodup
    simp
  have hperm : List.Perm (calculate_sector_attribution db cutoff)
      ((aggregateSectors H).map (fun s =>
        ({ sector := s.sector, start_value := s.start_value, end_value := s.end_value,
           value_change := s.value_change,
           sector_return := if (0 : ℚ) < s.start_value then s.value_change / s.start_value
             else 0,
           weight := s.weight, contribution := s.contribution,
           holdings_count := s.holdings_count } : SectorRow))) :=
    List.perm_insertionSort _ _
  constructor
  · intro srow hsrow
    have hmem := hperm.mem_iff.mp hsrow
    rcases List.mem_map.mp hmem with ⟨a, haagg, rfl⟩
    have hsum : ∀ (f : SectorAcc → ℚ) (g : AttrRow → ℚ),
        (∀ (h : AttrRow) (s : SectorAcc), f (sectorUpd h s) = f s + g h) →
        (∀ h : AttrRow, f (sectorNew h) = g h) →
        f a = ((H.filter fun h => h.sector = a.sector).map g).sum := by
      intro f g hcompat hnew
      have hagg := aggregate_filter_sum a.sector f g hcompat hnew H [] (by simp)
      rw [show List.foldl addHoldingToSectors [] H = aggregateSectors H from rfl,
        filter_eq_singleton_of_nodup _ a hnd haagg] at hagg
      simpa using hagg
    exact ⟨hsum SectorAcc.start_value AttrRow.start_value (fun _ _ => rfl) (fun _ => rfl),
      hsum SectorAcc.end_value AttrRow.end_value (fun _ _ => rfl) (fun _ => rfl),
      hsum SectorAcc.weight AttrRow.weight (fun _ _ => rfl) (fun _ => rfl),
      hsum SectorAcc.contribution AttrRow.contribution (fun _ _ => rfl) (fun _ => rfl)⟩
  · have h1 := (hperm.map SectorRow.contribution).sum_eq
    rw [h1, List.map_map]
    have h2 := aggregate_total_sum SectorAcc.contribution AttrRow.contribution
      (fun _ _ => rfl) (fun _ => rfl) H [] (by simp)
    simpa using h2
